import Mathlib

/-!
Verification development for the MoodMix playlist builder
(`MoodMixDjangoApp/music/builder.py` and `MoodMixDjangoApp/llm/selector.py`).

The builder pipeline is embedded shallowly: every external collaborator
(Spotify library fetches, catalog search, batched artist lookup, the
advisory selector LLM and the `/me` profile call) is an explicit input in
an `Env` record, and `preview` becomes a total function from the plan, the
requested length, the exclusion sets and that environment to either a
`BuildPreview` (plus a log of the search queries each stage issued) or a
Python-level error (the two ways the real `preview` can raise: a selector
hard failure propagating from `select_tracks`, and the `IndexError` from
`"".split()[0]` when the plan has no mood word and the relaxed pass is
reached).
-/

namespace MoodMix

/-- An artist reference as carried on a track document (`track["artists"]`);
the empty string models a missing/falsy id or name. -/
structure ArtistRef where
  id : String
  name : String
deriving Repr, DecidableEq

/-- A Spotify track document as consumed by the builder.  `id`/`uri` use the
empty string for a missing or falsy value, `popularity` uses `0` for a missing
value (the code reads it as `int(x or 0)`), and `isrc` models
`external_ids.isrc` with the empty string for absence.  `_compact_track`
drops `external_ids`, which we model by clearing `isrc` (see `compactTrack`). -/
structure Track where
  id : String
  uri : String
  name : String
  explicit : Bool
  durationMs : Nat
  popularity : Nat
  isrc : String
  artists : List ArtistRef
deriving Repr, DecidableEq

/-- An artist document from the batch lookup: popularity (0 for missing) and
genre strings. -/
structure ArtistDoc where
  popularity : Nat
  genres : List String
deriving Repr, DecidableEq

/-- The `/me` profile document fields the builder reads. -/
structure Me where
  country : Option String
  filterEnabled : Option Bool
deriving Repr, DecidableEq

/-- One advisory pick from the selector LLM (`SelectorPick`): optional library
reference and optional outside title/artist.  Structural validity is a
separate check (`pickValid`), exactly as in the pydantic model validator. -/
structure Pick where
  libraryId : Option String
  title : Option String
  artist : Option String
deriving Repr, DecidableEq

/-- The validated selector payload (`SelectorResult`). -/
structure SelectorResult where
  picks : List Pick
deriving Repr, DecidableEq

/-- Python truthiness of an optional string: `None` and `""` are falsy. -/
def strTruthy : Option String → Bool
  | none => false
  | some s => !(s == "")

/-- The environment of one `preview` invocation.  `search` is the result of
`_safe_search` for a query (a failing call is the empty list); the per-run
market is fixed and folded into it.  `artists` is the cached batched artist
lookup (`none` models an id that is unknown or whose batch fetch failed).
`selector` is the outcome of `select_tracks`: `Except.error` when both LLM
attempts failed validation and the exception propagates. -/
structure Env where
  recent : List Track
  topShort : List Track
  topMedium : List Track
  saved : List Track
  me : Option Me
  search : String → List Track
  artists : String → Option ArtistDoc
  selector : Except Unit SelectorResult

/-- The two ways the real `preview` raises: `select_tracks` failing twice, and
the `IndexError` from `(... or "").split()[0]` at the relaxed-pass entry when
the plan text has no word. -/
inductive PyErr where
  | selectorFailed
  | indexError
deriving Repr, DecidableEq

/-! ### The plan (`MoodPlan` from `planner_schema.py`) -/

/-- `Constraints`: only `explicit_allowed` matters to the builder; it is an
optional literal `"yes"`/`"no"`/`"user_pref"`. -/
structure Constraints where
  energy : Option String
  danceability : Option String
  explicitAllowed : Option String
deriving Repr, DecidableEq

/-- `PlanShape` (the float `novelty_ratio` is never read by the builder and is
omitted). -/
structure PlanShape where
  themes : List String
  candidateBuckets : List String
  ordering : List String
deriving Repr, DecidableEq

/-- `MoodPlan`. -/
structure MoodPlan where
  normalizedMood : String
  intent : String
  semanticTags : List String
  constraints : Constraints
  plan : PlanShape
  length : Option Nat
deriving Repr, DecidableEq

/-! ### String helpers mirroring the Python string operations
(written over `List Char` so that concrete runs reduce inside the kernel) -/

/-- Lowercase (`str.lower()` / `str.casefold()`, which agree on the ASCII
data involved here). -/
def strLower (s : String) : String :=
  String.mk (s.data.map Char.toLower)

/-- Uppercase (`str.upper()`). -/
def strUpper (s : String) : String :=
  String.mk (s.data.map Char.toUpper)

/-- Strip leading and trailing whitespace (`str.strip()`). -/
def strTrim (s : String) : String :=
  String.mk (((s.data.dropWhile Char.isWhitespace).reverse.dropWhile
    Char.isWhitespace).reverse)

/-- Split into whitespace-separated words (`str.split()` with no argument:
runs of whitespace separate, no empty words). -/
def wordsAux (cur : List Char) : List Char → List String
  | [] => if cur.isEmpty then [] else [String.mk cur.reverse]
  | c :: cs =>
    if c.isWhitespace then
      if cur.isEmpty then wordsAux [] cs
      else String.mk cur.reverse :: wordsAux [] cs
    else wordsAux (c :: cur) cs

/-- `str.split()`. -/
def wordsOf (s : String) : List String :=
  wordsAux [] s.data

/-- `sep.join(parts)`. -/
def joinWith (sep : String) : List String → String
  | [] => ""
  | [x] => x
  | x :: xs => x ++ sep ++ joinWith sep xs

/-- Does the needle occur as a contiguous prefix of the haystack
(char lists)? -/
def charsStartWith : List Char → List Char → Bool
  | [], _ => true
  | _ :: _, [] => false
  | a :: as, b :: bs => a == b && charsStartWith as bs

/-- Does the needle occur contiguously inside the haystack (char lists)?
Models the Python `needle in haystack` substring test. -/
def charsContain (n : List Char) : List Char → Bool
  | [] => charsStartWith n []
  | c :: cs => charsStartWith n (c :: cs) || charsContain n cs

/-- Python `needle in haystack` on strings. -/
def substrB (needle hay : String) : Bool :=
  charsContain needle.data hay.data

/-- Normalization used by `_content_key`: casefold, strip characters outside
`\w`/`\s`, collapse whitespace runs to single spaces and strip the ends
(`re.sub` + `strip`). -/
def normalizeText (s : String) : String :=
  let kept := (strLower s).data.filter fun c =>
    c.isAlphanum || c == '_' || c.isWhitespace
  let words := wordsOf (String.mk kept)
  joinWith " " words

/-- Keep the first occurrence of each element, dropping later duplicates:
Python `list(dict.fromkeys(xs))`. -/
def dedupFirstAux [DecidableEq α] (acc : List α) : List α → List α
  | [] => acc
  | x :: xs => if x ∈ acc then dedupFirstAux acc xs else dedupFirstAux (acc ++ [x]) xs

/-- `list(dict.fromkeys(xs))`. -/
def dedupFirst [DecidableEq α] (l : List α) : List α :=
  dedupFirstAux [] l

/-- Python `round` on `durationMs / 1000` (floats `k + 0.5` are exact, so the
tie rounds to even, as CPython does). -/
def roundMsToSec (ms : Nat) : Nat :=
  let q := ms / 1000
  let r := ms % 1000
  if r < 500 then q
  else if 500 < r then q + 1
  else if q % 2 == 0 then q else q + 1

/-- `PlaylistBuilder._content_key`: prefer the ISRC (stripped, uppercased);
otherwise join the normalized title, normalized primary-artist name and the
duration rounded to seconds. -/
def contentKey (t : Track) : String :=
  let isrc := strUpper (strTrim t.isrc)
  if isrc ≠ "" then "isrc:" ++ isrc
  else
    let title := normalizeText t.name
    let primary :=
      match t.artists with
      | [] => ""
      | a :: _ => normalizeText a.name
    title ++ "|" ++ primary ++ "|" ++ toString (roundMsToSec t.durationMs)

/-- `PlaylistBuilder._compact_track`: the compacted record keeps id, uri, name,
explicit, duration, popularity and artists but drops `external_ids` — so its
content key can never take the ISRC branch.  Modeled by clearing `isrc`. -/
def compactTrack (t : Track) : Track :=
  { t with isrc := "" }

/-! ### Genre-token derivation (`_derive_genre_tokens`) -/

/-- The fixed whitelist of genre families from `_derive_genre_tokens`. -/
def genreMap : List (String × List String) :=
  [ ("metalcore", ["metalcore"]),
    ("hardcore", ["hardcore", "post-hardcore"]),
    ("metal", ["metal", "nu-metal", "post-metal", "deathcore", "black metal", "groove metal"]),
    ("punk", ["punk", "hardcore punk", "post-punk"]),
    ("industrial", ["industrial", "aggrotech", "industrial metal"]),
    ("rock", ["rock", "alt rock", "hard rock"]),
    ("edm", ["edm", "dubstep", "bass", "trap edm", "electro house"]),
    ("hip hop", ["hip hop", "rap", "trap"]),
    ("pop", ["pop"]),
    ("folk", ["folk", "indie folk"]),
    ("country", ["country"]),
    ("ambient", ["ambient"]),
    ("classical", ["classical", "orchestral"]) ]

/-- The text `_derive_genre_tokens` scans: the joined, lowercased semantic
tags and candidate buckets (NOT the themes). -/
def planText (p : MoodPlan) : String :=
  strLower (joinWith " " (p.semanticTags ++ p.plan.candidateBuckets))

/-- Scan the families in order; a family whose synonym set has any member
occurring in the text contributes its full synonym set once. -/
def scanFamilies (text : String) : List (String × List String) → List String
  | [] => []
  | fam :: rest =>
    (if fam.2.any (fun tok => substrB tok text) then fam.2 else []) ++
      scanFamilies text rest

/-- Token derivation from the scanned text, deduplicated keeping first
occurrences (`list(dict.fromkeys(allowed))`). -/
def deriveFromText (text : String) : List String :=
  dedupFirst (scanFamilies text genreMap)

/-- `PlaylistBuilder._derive_genre_tokens`. -/
def deriveGenreTokens (p : MoodPlan) : List String :=
  deriveFromText (planText p)

/-! ### Artist metadata and the guards -/

/-- `_artist_info_for_ids`, with the per-invocation cache and the batch fetch
made explicit.  A failing `get_artists` call is swallowed (`except: pass`) and
leaves the cache as-is, so never-fetched ids simply resolve to `none`; the
function never raises.  Elsewhere we use the resulting cached view directly
as `Env.artists`. -/
def artistInfoForIds (cache : String → Option ArtistDoc)
    (fetch : Except Unit (String → Option ArtistDoc)) (ids : List String)
    (aid : String) : Option ArtistDoc :=
  if aid ∈ ids then
    match cache aid with
    | some d => some d
    | none =>
      match fetch with
      | .ok f => f aid
      | .error _ => none
  else none

/-- The truthy artist ids of a track
(`[a.get("id") for a in artists if a.get("id")]`). -/
def trackArtistIds (t : Track) : List String :=
  t.artists.filterMap fun a => if a.id = "" then none else some a.id

/-- Best popularity among a track's credited artists, a missing doc counting
as `0` (`int(ainfo.get("popularity") or 0)` with `amap.get(aid) or {}`),
exactly as accumulated in `_passes_popularity`. -/
def bestArtistPop (lookup : String → Option ArtistDoc) (t : Track) : Nat :=
  (trackArtistIds t).foldl
    (fun best aid => max best (((lookup aid).map ArtistDoc.popularity).getD 0)) 0

/-- `PlaylistBuilder._passes_popularity`. -/
def passesPopularity (lookup : String → Option ArtistDoc) (t : Track)
    (minTrackPop minArtistPop : Nat) : Bool :=
  if t.popularity < minTrackPop then false
  else decide (minArtistPop ≤ bestArtistPop lookup t)

/-- `PlaylistBuilder._artist_genres_match`: with no derived tokens everything
passes; otherwise some credited artist must have a genre string containing one
of the (truthy, lowercased) tokens. -/
def artistGenresMatch (lookup : String → Option ArtistDoc) (t : Track)
    (allowedGenreTokens : List String) : Bool :=
  if allowedGenreTokens.isEmpty then true
  else
    let toks := (allowedGenreTokens.filter (· ≠ "")).map strLower
    (trackArtistIds t).any fun aid =>
      match lookup aid with
      | none => false
      | some d => d.genres.any fun g => toks.any fun tok => substrB tok (strLower g)

/-- The best-artist-popularity accumulation of
`_apply_artist_pop_and_genre_filters` (artists with a falsy id or a missing
doc are skipped; no docs at all gives `0`). -/
def applyBest (lookup : String → Option ArtistDoc) (t : Track) : Nat :=
  t.artists.foldl
    (fun best a =>
      if a.id = "" then best
      else
        match lookup a.id with
        | none => best
        | some d => max best d.popularity) 0

/-- The lowercased genre strings of a candidate's artists collected by
`_apply_artist_pop_and_genre_filters`. -/
def candGenres (lookup : String → Option ArtistDoc) (t : Track) : List String :=
  t.artists.foldr
    (fun a acc =>
      (match (if a.id = "" then none else lookup a.id) with
       | none => []
       | some d => d.genres.map strLower) ++ acc) []

/-- `PlaylistBuilder._apply_artist_pop_and_genre_filters`: keep the candidates
passing track popularity, best-artist popularity and (when tokens were
derived) the genre guard; return the kept list and the rejected count. -/
def applyArtistPopGenreFilters (lookup : String → Option ArtistDoc)
    (items : List Track) (allowedGenreTokens : List String)
    (minTrackPop minArtistPop : Nat) : List Track × Nat :=
  match items with
  | [] => ([], 0)
  | c :: cs =>
    let rest := applyArtistPopGenreFilters lookup cs allowedGenreTokens minTrackPop minArtistPop
    let allowedToks := (allowedGenreTokens.filter (· ≠ "")).map strLower
    if c.popularity < minTrackPop then (rest.1, rest.2 + 1)
    else if applyBest lookup c < minArtistPop then (rest.1, rest.2 + 1)
    else if !allowedToks.isEmpty &&
        !((candGenres lookup c).any fun g => allowedToks.any fun tok => substrB tok g) then
      (rest.1, rest.2 + 1)
    else (c :: rest.1, rest.2)

/-! ### Sorting (`sorted(..., key=popularity, reverse=True)`, stable) -/

/-- Stable insertion of a track into a popularity-descending list: it goes in
front of the first strictly-later element whose popularity is not larger,
matching the placement a stable descending sort gives an earlier element. -/
def insertByPopDesc (t : Track) : List Track → List Track
  | [] => [t]
  | y :: ys => if y.popularity ≤ t.popularity then t :: y :: ys else y :: insertByPopDesc t ys

/-- Stable sort by popularity, descending — same permutation as Python's
stable `sorted(items, key=lambda x: x.get("popularity") or 0, reverse=True)`. -/
def sortByPopDesc : List Track → List Track
  | [] => []
  | x :: xs => insertByPopDesc x (sortByPopDesc xs)

/-! ### Candidate pool (`_collect_pool_with_counts`) -/

/-- Per-source insertion counts. -/
structure Counts where
  recent : Nat
  topShort : Nat
  topMedium : Nat
  saved : Nat
deriving Repr, DecidableEq

/-- Lookup by key in the insertion-ordered pool. -/
def poolFind (pool : List (String × Track)) (k : String) : Option Track :=
  (pool.find? fun e => e.1 = k).map Prod.snd

/-- Insert one source's tracks: skip entries without id or uri, count and skip
disallowed ids, and keep only the first occurrence of each id.  Returns the
new pool, the filtered-from-pool increment and this source's inserted count. -/
def insertTracks (disallowed : List String) (pool : List (String × Track)) :
    List Track → List (String × Track) × Nat × Nat
  | [] => (pool, 0, 0)
  | t :: ts =>
    if t.id = "" ∨ t.uri = "" then insertTracks disallowed pool ts
    else if t.id ∈ disallowed then
      let r := insertTracks disallowed pool ts
      (r.1, r.2.1 + 1, r.2.2)
    else if (poolFind pool t.id).isSome then insertTracks disallowed pool ts
    else
      let r := insertTracks disallowed (pool ++ [(t.id, t)]) ts
      (r.1, r.2.1, r.2.2 + 1)

/-- `PlaylistBuilder._collect_pool_with_counts`: recent, top short/medium and
saved tracks in order (a failing fetch already shows up as an empty source
list in `Env`).  Returns the pool, per-source counts and the filtered count. -/
def collectPool (env : Env) (disallowed : List String) :
    List (String × Track) × Counts × Nat :=
  let r1 := insertTracks disallowed [] env.recent
  let r2 := insertTracks disallowed r1.1 env.topShort
  let r3 := insertTracks disallowed r2.1 env.topMedium
  let r4 := insertTracks disallowed r3.1 env.saved
  (r4.1,
   { recent := r1.2.2, topShort := r2.2.2, topMedium := r3.2.2, saved := r4.2.2 },
   r1.2.1 + r2.2.1 + r3.2.1 + r4.2.1)

/-! ### Query composition (`_queries_from_plan_and_pool`) -/

/-- Collect artist names from the popularity-sorted pool entries, stopping
after the first track that brings the count to five or more
(the `if len(artist_names) >= 5: break` sits after the inner loop). -/
def collectArtistNames : List Track → List String → List String
  | [], acc => acc
  | t :: ts, acc =>
    let acc2 := acc ++ (t.artists.map ArtistRef.name).filter (· ≠ "")
    if 5 ≤ acc2.length then acc2 else collectArtistNames ts acc2

/-- `PlaylistBuilder._queries_from_plan_and_pool`. -/
def queriesFromPlanAndPool (plan : MoodPlan) (pool : List (String × Track))
    (wantClean : Bool) : List String :=
  let mood := strLower (strTrim plan.normalizedMood)
  let tags := plan.semanticTags.take 6
  let themes := plan.plan.themes.take 4
  let baseTerms := ([mood] ++ tags ++ themes).filter (· ≠ "")
  let entries := sortByPopDesc (pool.map Prod.snd)
  let artistNames := (dedupFirst (collectArtistNames entries [])).take 5
  let simple :=
    (((tags.take 4).map fun tag =>
        strTrim (joinWith " " (([mood, tag]).filter (· ≠ "")))) ++
     ((themes.take 3).map fun th =>
        strTrim (joinWith " " (([mood, th]).filter (· ≠ ""))))).filter (· ≠ "")
  let artistPhrases :=
    (artistNames.flatMap fun an =>
      (if (tags.take 3).isEmpty then [mood] else tags.take 3).map fun term =>
        strTrim (joinWith " " [term, an])).filter (· ≠ "")
  let queries0 := dedupFirst (simple ++ artistPhrases)
  let queries1 :=
    if queries0.isEmpty ∧ ¬baseTerms.isEmpty then
      [joinWith " " (baseTerms.take 2)]
    else queries0
  if wantClean then queries1.take 10 ++ (queries1.take 2).map (· ++ " clean")
  else queries1

/-! ### Explicit-content policy -/

/-- `(plan.constraints and plan.constraints.explicit_allowed) or "user_pref"`. -/
def explicitPolicy (p : MoodPlan) : String :=
  match p.constraints.explicitAllowed with
  | none => "user_pref"
  | some s => if s = "" then "user_pref" else s

/-- The `want_clean` resolution in `preview`: `"no"` forces clean, `"yes"`
forces explicit-allowed, anything else falls back to
`bool(user_wants_clean)` — `false` when the `/me` call failed. -/
def wantClean (p : MoodPlan) (userWantsClean : Option Bool) : Bool :=
  let ea := explicitPolicy p
  if ea = "no" then true
  else if ea = "yes" then false
  else userWantsClean.getD false

/-- `user_wants_clean` as computed from `/me`
(`bool(explicit_caps.get("filter_enabled"))`, `None` when the call raised). -/
def userWantsCleanOf (env : Env) : Option Bool :=
  env.me.map fun m => m.filterEnabled.getD false

/-- The resolved clean-only flag of a run. -/
def wantCleanOf (env : Env) (p : MoodPlan) : Bool :=
  wantClean p (userWantsCleanOf env)

/-! ### Outside-pick resolution (`_search_and_pick`) -/

/-- The early explicit/duplicate filter of `_search_and_pick`. -/
def earlyFilter (wc : Bool) (seen : List String) (items : List Track) : List Track :=
  items.filter fun c => !(c.id == "") && !(decide (c.id ∈ seen)) && !(wc && c.explicit)

/-- The best-match preference: the first guarded candidate whose name+artists
text contains every word of the lowercased query; else the first guarded
candidate. -/
def pickPreferred (q : String) (filtered : List Track) : Option Track :=
  let byTokens := filtered.find? fun c =>
    let nm := strLower c.name
    let arts := strLower (joinWith " " (c.artists.map ArtistRef.name))
    let hay := nm ++ " " ++ arts
    (wordsOf (strLower q)).all fun part => substrB part hay
  match byTokens with
  | some c => some c
  | none => filtered.head?

/-- `PlaylistBuilder._search_and_pick`: one search, early explicit/dup filter,
popularity+genre guard, then the preference rule.  Returns the picked track
(if any) and the rejected count. -/
def searchAndPick (env : Env) (q : String) (wc : Bool) (seen : List String)
    (allowedGenreTokens : List String) (minTrackPop minArtistPop : Nat) :
    Option Track × Nat :=
  let items := env.search q
  let filtered := earlyFilter wc seen items
  let guarded := applyArtistPopGenreFilters env.artists filtered allowedGenreTokens
      minTrackPop minArtistPop
  (pickPreferred q guarded.1, guarded.2)

/-! ### Stage 2: resolving the advisory picks -/

/-- `max(4, min(10, int(length or 10)))`. -/
def clampN (length : Nat) : Nat :=
  max 4 (min 10 (if length = 0 then 10 else length))

/-- Resolution of one library pick: the hard-ban, explicit, popularity and
genre guards of the first loop over `res.picks` (a failing guard drops the
pick). -/
def resolveLibPick (env : Env) (pool : List (String × Track))
    (disallowedIds : List String) (wc : Bool) (allowedGenreTokens : List String)
    (minTrackPop minArtistPop : Nat) (p : Pick) : Option Track :=
  match p.libraryId with
  | none => none
  | some lid =>
    if lid = "" then none
    else
      match poolFind pool lid with
      | none => none
      | some track =>
        if lid ∈ disallowedIds then none
        else if wc && track.explicit then none
        else if !passesPopularity env.artists track minTrackPop minArtistPop then none
        else if !artistGenresMatch env.artists track allowedGenreTokens then none
        else some (compactTrack track)

/-- Resolution of library picks, in pick order (the first loop over
`res.picks`). -/
def resolveLibraryPicks (env : Env) (pool : List (String × Track))
    (picks : List Pick) (disallowedIds : List String) (wc : Bool)
    (allowedGenreTokens : List String) (minTrackPop minArtistPop : Nat) :
    List Track :=
  picks.filterMap
    (resolveLibPick env pool disallowedIds wc allowedGenreTokens minTrackPop minArtistPop)

/-- Bookkeeping of the outside-pick loop. -/
structure OutsideRes where
  chosen : List Track
  requested : Nat
  resolved : Nat
  missing : List (String × String)
  rejected : Nat
  log : List String
deriving Repr

/-- The second loop over `res.picks`: each outside pick (truthy title and
artist) triggers one search via `_search_and_pick` against the constant
`seen = disallowed_ids`; a hit is compacted and appended, a miss is recorded.
`log` collects the issued queries. -/
def resolveOutsidePicks (env : Env) (wc : Bool) (disallowedIds : List String)
    (allowedGenreTokens : List String) (minTrackPop minArtistPop : Nat) :
    List Pick → OutsideRes
  | [] => ⟨[], 0, 0, [], 0, []⟩
  | p :: ps =>
    let rest := resolveOutsidePicks env wc disallowedIds allowedGenreTokens
        minTrackPop minArtistPop ps
    if strTruthy p.libraryId then rest
    else if !(strTruthy p.title && strTruthy p.artist) then rest
    else
      let title := p.title.getD ""
      let artist := p.artist.getD ""
      let q := title ++ " " ++ artist
      match searchAndPick env q wc disallowedIds allowedGenreTokens minTrackPop minArtistPop with
      | (some c, rej) =>
        { chosen := compactTrack c :: rest.chosen, requested := rest.requested + 1,
          resolved := rest.resolved + 1, missing := rest.missing,
          rejected := rej + rest.rejected, log := q :: rest.log }
      | (none, rej) =>
        { chosen := rest.chosen, requested := rest.requested + 1,
          resolved := rest.resolved, missing := (title, artist) :: rest.missing,
          rejected := rej + rest.rejected, log := q :: rest.log }

/-! ### Stage 3: deduplicate and clamp -/

/-- The dedup-and-clamp walk over the accumulated candidates: a falsy id, a
seen id or a seen content key skips the entry (remembering the id); an
accepted entry joins `uniq` and both sets, and the walk stops at `N`. -/
def dedupClampAux (N : Nat) : List Track → List Track → List String → List String →
    List Track × List String × List String
  | [], uniq, seen, keys => (uniq, seen, keys)
  | t :: rest, uniq, seen, keys =>
    if t.id = "" ∨ t.id ∈ seen ∨ contentKey t ∈ keys then
      dedupClampAux N rest uniq (if t.id = "" then seen else t.id :: seen) keys
    else
      let uniq2 := uniq ++ [t]
      let seen2 := t.id :: seen
      let keys2 := contentKey t :: keys
      if N ≤ uniq2.length then (uniq2, seen2, keys2)
      else dedupClampAux N rest uniq2 seen2 keys2

/-! ### Stages 4 and 5: backfill and relaxed fallback -/

/-- Shared per-pass state: the assembled unique list, the two dedup sets, the
remaining slot count, the running rejection counter and the queries this pass
issued. -/
structure BState where
  uniq : List Track
  seen : List String
  seenKeys : List String
  need : Nat
  rejected : Nat
  log : List String
deriving Repr

/-- The inner acceptance loop of the guarded backfill: per candidate, stop
when no slots remain, skip duplicates and (under clean-only) explicit tracks,
otherwise append the compacted candidate — recording the RAW candidate's
content key, exactly as the code does. -/
def backfillAccept (wc : Bool) (st : BState) : List Track → BState
  | [] => st
  | c :: cs =>
    if st.need = 0 then st
    else if c.id = "" ∨ c.id ∈ st.seen ∨ contentKey c ∈ st.seenKeys then
      backfillAccept wc st cs
    else if wc && c.explicit then backfillAccept wc st cs
    else
      backfillAccept wc
        { st with uniq := st.uniq ++ [compactTrack c], seen := c.id :: st.seen,
                  seenKeys := contentKey c :: st.seenKeys, need := st.need - 1 } cs

/-- The guarded backfill pass: for each curated query while slots remain,
search, sort by popularity, apply the artist-pop/genre filter, and accept. -/
def backfillLoop (env : Env) (allowedGenreTokens : List String) (wc : Bool)
    (minTrackPop minArtistPop : Nat) : List String → BState → BState
  | [], st => st
  | q :: qs, st =>
    if st.need = 0 then st
    else
      let items := sortByPopDesc (env.search q)
      let guarded := applyArtistPopGenreFilters env.artists items allowedGenreTokens
          minTrackPop minArtistPop
      let st2 := backfillAccept wc
        { st with rejected := st.rejected + guarded.2, log := st.log ++ [q] } guarded.1
      backfillLoop env allowedGenreTokens wc minTrackPop minArtistPop qs st2

/-- The relaxed popularity floor of the fallback pass
(`max(10, MIN_TRACK_POP // 2)`). -/
def popFloor (minTrackPop : Nat) : Nat :=
  max 10 (minTrackPop / 2)

/-- Acceptance test of the relaxed fallback pass: unseen id and content key,
the explicit policy, and the relaxed popularity floor — no genre or artist
guard. -/
def relaxedAccept (wc : Bool) (minTrackPop : Nat) (seen keys : List String)
    (c : Track) : Bool :=
  if c.id = "" ∨ c.id ∈ seen ∨ contentKey c ∈ keys then false
  else if wc && c.explicit then false
  else if c.popularity < popFloor minTrackPop then false
  else true

/-- Inner acceptance loop of the relaxed pass. -/
def relaxedAcceptLoop (wc : Bool) (minTrackPop : Nat) (st : BState) :
    List Track → BState
  | [] => st
  | c :: cs =>
    if st.need = 0 then st
    else if relaxedAccept wc minTrackPop st.seen st.seenKeys c then
      relaxedAcceptLoop wc minTrackPop
        { st with uniq := st.uniq ++ [compactTrack c], seen := c.id :: st.seen,
                  seenKeys := contentKey c :: st.seenKeys, need := st.need - 1 } cs
    else relaxedAcceptLoop wc minTrackPop st cs

/-- The relaxed fallback pass over its derived queries: note it consults only
`search` — no artist metadata at all. -/
def relaxedLoop (search : String → List Track) (wc : Bool) (minTrackPop : Nat) :
    List String → BState → BState
  | [], st => st
  | q :: qs, st =>
    if st.need = 0 then st
    else
      let items := sortByPopDesc (search q)
      let st2 := relaxedAcceptLoop wc minTrackPop { st with log := st.log ++ [q] } items
      relaxedLoop search wc minTrackPop qs st2

/-- The relaxed-pass mood word: `(normalized_mood or intent or "").split()[0]`
(`none` models the IndexError raised when the effective text has no word). -/
def moodWord (p : MoodPlan) : Option String :=
  let eff := if p.normalizedMood ≠ "" then p.normalizedMood
             else if p.intent ≠ "" then p.intent else ""
  match wordsOf eff with
  | [] => none
  | w :: _ => some (strLower (strTrim w))

/-- The relaxed-pass query list: each truthy genre token contributes itself,
`"<tok> hits"` and `"<tok> top songs"`; a truthy mood word contributes itself
and `"<mood> hits"`; deduplicated preserving order. -/
def fallbackQueries (tokens : List String) (mw : String) : List String :=
  dedupFirst
    ((tokens.foldr
        (fun tok acc =>
          if tok ≠ "" then tok :: (tok ++ " hits") :: (tok ++ " top songs") :: acc
          else acc) []) ++
     (if mw ≠ "" then [mw, mw ++ " hits"] else []))

/-! ### Result and debug records -/

/-- The debug record built by `preview` (the fields the pipeline computes;
`llm_attempts` lives in the environment and is omitted). -/
structure Debug where
  mode : String
  market : Option String
  requested : Nat
  selected : Nat
  explicitPolicy : String
  resolvedCleanOnly : Bool
  outsideRequested : Nat
  outsideResolved : Nat
  missingResolutions : List (String × String)
  rejectedLowPop : Nat
  disallowedTotal : Nat
  disallowedFilteredFromPool : Nat
  librarySize : Nat
  sources : Counts
  fallbackUsed : Bool
  reason : Option String
deriving Repr

/-- `BuildPreview`. -/
structure BuildPreview where
  uris : List String
  tracks : List Track
  debug : Debug
deriving Repr

/-- The search queries each searching stage issued during one run. -/
structure SearchLog where
  stage2 : List String
  stage4 : List String
  stage5 : List String
deriving Repr

/-- The all-or-nothing final decision: short of `N` gives the empty result
with the fallback debug record; otherwise the uris of the assembled list. -/
def finalize (N : Nat) (market : Option String) (libSize : Nat) (counts : Counts)
    (filteredFromPool : Nat) (ea : String) (wc : Bool) (outs : OutsideRes)
    (rejected : Nat) (disTotal : Nat) (uniq : List Track) : BuildPreview :=
  if uniq.length < N then
    { uris := [], tracks := [],
      debug :=
        { mode := "selector+search_fallback+fallback_relaxed", market := market,
          requested := N, selected := uniq.length, explicitPolicy := ea,
          resolvedCleanOnly := wc, outsideRequested := outs.requested,
          outsideResolved := outs.resolved, missingResolutions := outs.missing,
          rejectedLowPop := rejected, disallowedTotal := disTotal,
          disallowedFilteredFromPool := filteredFromPool, librarySize := libSize,
          sources := counts, fallbackUsed := true,
          reason := some "insufficient_tracks_after_fallback" } }
  else
    { uris := uniq.map Track.uri, tracks := uniq,
      debug :=
        { mode := "selector+search_fallback", market := market, requested := N,
          selected := uniq.length, explicitPolicy := ea, resolvedCleanOnly := wc,
          outsideRequested := outs.requested, outsideResolved := outs.resolved,
          missingResolutions := outs.missing, rejectedLowPop := rejected,
          disallowedTotal := disTotal, disallowedFilteredFromPool := filteredFromPool,
          librarySize := libSize, sources := counts, fallbackUsed := false,
          reason := none } }

/-! ### The orchestrating `preview` -/

/-- The accumulated candidate list after stage 2 (library picks first, then
resolved outside picks, in pick order). -/
def chosenOf (env : Env) (plan : MoodPlan) (disallowedIds : List String)
    (minTrackPop minArtistPop : Nat) (res : SelectorResult) : List Track :=
  let pool := (collectPool env disallowedIds).1
  let wc := wantCleanOf env plan
  let tokens := deriveGenreTokens plan
  resolveLibraryPicks env pool res.picks disallowedIds wc tokens minTrackPop minArtistPop ++
    (resolveOutsidePicks env wc disallowedIds tokens minTrackPop minArtistPop res.picks).chosen

/-- The stage-3 output: dedup and clamp the accumulated candidates, with the
seen set seeded by the disallowed ids. -/
def stage3Of (env : Env) (plan : MoodPlan) (length : Nat)
    (disallowedIds : List String) (minTrackPop minArtistPop : Nat)
    (res : SelectorResult) : List Track × List String × List String :=
  dedupClampAux (clampN length)
    (chosenOf env plan disallowedIds minTrackPop minArtistPop res) [] disallowedIds []

/-- The state after the guarded backfill (stage 4), which runs only when
stage 3 left the quota unmet. -/
def stage4Of (env : Env) (plan : MoodPlan) (length : Nat)
    (disallowedIds : List String) (minTrackPop minArtistPop : Nat)
    (res : SelectorResult) : BState :=
  let N := clampN length
  let wc := wantCleanOf env plan
  let tokens := deriveGenreTokens plan
  let pool := (collectPool env disallowedIds).1
  let outs := resolveOutsidePicks env wc disallowedIds tokens minTrackPop minArtistPop res.picks
  let s3 := stage3Of env plan length disallowedIds minTrackPop minArtistPop res
  if s3.1.length < N then
    backfillLoop env tokens wc minTrackPop minArtistPop
      ((queriesFromPlanAndPool plan pool wc).take 12)
      { uniq := s3.1, seen := s3.2.1, seenKeys := s3.2.2, need := N - s3.1.length,
        rejected := outs.rejected, log := [] }
  else
    { uniq := s3.1, seen := s3.2.1, seenKeys := s3.2.2, need := 0,
      rejected := outs.rejected, log := [] }

/-- `PlaylistBuilder.preview`, with the issued search queries exposed.  The
`disallowedPairs` argument is (as in the code) only forwarded to the selector
LLM — the environment already reflects the selector outcome, so no pipeline
stage consults it. -/
def previewE (env : Env) (plan : MoodPlan) (length : Nat)
    (disallowedIds : List String) (disallowedPairs : List (String × String))
    (minTrackPop minArtistPop : Nat) : Except PyErr (BuildPreview × SearchLog) :=
  let _ := disallowedPairs
  match env.selector with
  | .error _ => .error .selectorFailed
  | .ok res =>
    let N := clampN length
    let pc := collectPool env disallowedIds
    let market := env.me.bind Me.country
    let ea := explicitPolicy plan
    let wc := wantCleanOf env plan
    let outs := resolveOutsidePicks env wc disallowedIds (deriveGenreTokens plan)
        minTrackPop minArtistPop res.picks
    let st4 := stage4Of env plan length disallowedIds minTrackPop minArtistPop res
    if st4.uniq.length < N then
      match moodWord plan with
      | none => .error .indexError
      | some mw =>
        let fq := fallbackQueries (deriveGenreTokens plan) mw
        let st5 := relaxedLoop env.search wc minTrackPop fq
          { st4 with need := N - st4.uniq.length, log := [] }
        .ok (finalize N market pc.1.length pc.2.1 pc.2.2 ea wc outs st4.rejected
              disallowedIds.length st5.uniq,
             ⟨outs.log, st4.log, st5.log⟩)
    else
      .ok (finalize N market pc.1.length pc.2.1 pc.2.2 ea wc outs st4.rejected
            disallowedIds.length st4.uniq,
           ⟨outs.log, st4.log, []⟩)

/-- `preview` without the query log. -/
def preview (env : Env) (plan : MoodPlan) (length : Nat)
    (disallowedIds : List String) (disallowedPairs : List (String × String))
    (minTrackPop minArtistPop : Nat) : Except PyErr BuildPreview :=
  (previewE env plan length disallowedIds disallowedPairs minTrackPop minArtistPop).map
    Prod.fst

/-! ### The selector call (`selector.py`, `select_tracks`) -/

/-- A chat message: role and content. -/
inductive Msg where
  | system (content : String)
  | user (content : String)
deriving Repr, DecidableEq

/-- The `SYSTEM` prompt of the selector (behavioral contract text). -/
def SYSTEM : String :=
  "You are a strict playlist selector.\n" ++
  "Choose exactly N tracks that fit the PLAN’s style and constraints, following PLAN.plan.ordering.\n" ++
  "Rules:\n" ++
  "1) Prefer tracks from LIBRARY when they fit the theme.\n" ++
  "2) If LIBRARY coverage is insufficient, fill the remainder with outside songs by title+artist until N is reached.\n" ++
  "   Prefer widely-known/popular tracks that clearly match the vibe and outline.\n" ++
  "3) Respect explicit policy: if plan.constraints.explicit_allowed == \x27no\x27, avoid explicit songs.\n" ++
  "4) Avoid kids/nursery music unless the PLAN explicitly asks for it.\n" ++
  "5) Do NOT choose songs just because the mood words appear in a title or artist name. Focus on the sonic FEEL.\n" ++
  "6) For each pick, output either \x7b\"library_id\": \"<id>\"\x7d OR \x7b\"title\": \"<song>\", \"artist\": \"<artist>\"\x7d.\n" ++
  "7) Never pick anything in the disallowed lists (by library_id OR by title+artist).\n" ++
  "8) Output only JSON: \x7b\"picks\":[...]\x7d — no extra commentary."

/-- The corrective reminder added (as a second system message) on the single
retry after a validation failure. -/
def REMINDER : String :=
  "Your previous output failed validation. Reminder:\n" ++
  "- Exactly N picks.\n" ++
  "- Each pick must be EITHER \x7blibrary_id\x7d OR \x7btitle AND artist\x7d.\n" ++
  "- Fill outside picks until N if the library is insufficient.\n" ++
  "- Never use disallowed items.\n" ++
  "- Do not choose songs because the mood words appear; choose based on vibe."

/-- The `SelectorPick` model validator: a pick must have a truthy library
reference XOR a truthy title+artist — never both, never neither. -/
def pickValid (p : Pick) : Bool :=
  let hasLib := strTruthy p.libraryId
  let hasOutside := strTruthy p.title && strTruthy p.artist
  if hasLib && hasOutside then false
  else if !hasLib && !hasOutside then false
  else true

/-- The `SelectorResult` model constraints: 1 to 10 structurally valid picks. -/
def validateResult (r : SelectorResult) : Bool :=
  decide (1 ≤ r.picks.length) && decide (r.picks.length ≤ 10) && r.picks.all pickValid

/-- `select_tracks`, with the LLM round-trip (`_attempt_llm` + `_extract_json`
+ `model_validate`) abstracted as an oracle from the message list to a
validated result (`none` = bad JSON or failed validation).  A first failure
triggers exactly one retry whose message list inserts the corrective
`REMINDER` system instruction; a second failure propagates as an error. -/
def selectTracksModel (oracle : List Msg → Option SelectorResult)
    (payload : String) : Except Unit (SelectorResult × List (List Msg)) :=
  let msgs1 := [Msg.system SYSTEM, Msg.user payload]
  match oracle msgs1 with
  | some r => .ok (r, [msgs1])
  | none =>
    let msgs2 := [Msg.system SYSTEM, Msg.system REMINDER, Msg.user payload]
    match oracle msgs2 with
    | some r => .ok (r, [msgs1, msgs2])
    | none => .error ()

/-- The claim-side reading of a disallowed (title, artist) pair matching a
track, case-insensitively. -/
def pairMatches (t : Track) (title artist : String) : Bool :=
  strLower t.name == strLower title &&
    t.artists.any fun a => strLower a.name == strLower artist

/-- The explicit-policy resolution as the spec words it, for comparison with
the implementation (`wantClean`): the plan value wins when it is `"yes"` or
`"no"`; otherwise the user clean-filter preference is used; when that
preference is unavailable, explicit content is allowed. -/
def wantCleanSpec (p : MoodPlan) (userPref : Option Bool) : Bool :=
  if explicitPolicy p = "no" then true
  else if explicitPolicy p = "yes" then false
  else
    match userPref with
    | some b => b
    | none => false

/-- The claim-side text source for genre derivation: the plan tags/themes
text (spec wording) — to be compared with `planText`, which the code builds
from the tags and the candidate buckets instead. -/
def tagsThemesText (p : MoodPlan) : String :=
  strLower (joinWith " " (p.semanticTags ++ p.plan.themes))

/-! ## Concrete runs (used by counterexamples and witnesses) -/

/-- A placeholder debug record for projections out of `Except`. -/
def emptyDebug : Debug :=
  { mode := "", market := none, requested := 0, selected := 0,
    explicitPolicy := "", resolvedCleanOnly := false, outsideRequested := 0,
    outsideResolved := 0, missingResolutions := [], rejectedLowPop := 0,
    disallowedTotal := 0, disallowedFilteredFromPool := 0, librarySize := 0,
    sources := ⟨0, 0, 0, 0⟩, fallbackUsed := false, reason := none }

/-- Extract the `BuildPreview` of a successful run (placeholder otherwise). -/
def okBp (r : Except PyErr (BuildPreview × SearchLog)) : BuildPreview :=
  match r with
  | .ok p => p.1
  | .error _ => ⟨[], [], emptyDebug⟩

/-- Extract the `SearchLog` of a successful run (placeholder otherwise). -/
def okLog (r : Except PyErr (BuildPreview × SearchLog)) : SearchLog :=
  match r with
  | .ok p => p.2
  | .error _ => ⟨[], [], []⟩

/-- A shared test artist reference. -/
def xArtist : ArtistRef := ⟨"ax", "X"⟩

/-- Artist lookup in which every id resolves to popularity 50, no genres. -/
def artists50 : String → Option ArtistDoc := fun _ => some ⟨50, []⟩

/-- A plan whose tags/buckets trigger no genre family. -/
def calmPlan : MoodPlan :=
  { normalizedMood := "calm", intent := "focus", semanticTags := ["calm"],
    constraints := { energy := none, danceability := none, explicitAllowed := none },
    plan := { themes := ["calm"], candidateBuckets := ["calm"], ordering := ["steady"] },
    length := some 4 }

/-- `calmPlan` with `explicit_allowed = "no"`. -/
def cleanPlan : MoodPlan :=
  { calmPlan with
    constraints := { energy := none, danceability := none, explicitAllowed := some "no" } }

/-- A plan whose tags/buckets trigger the metal genre family. -/
def metalPlan : MoodPlan :=
  { normalizedMood := "calm", intent := "focus", semanticTags := ["metal"],
    constraints := { energy := none, danceability := none, explicitAllowed := none },
    plan := { themes := ["metal"], candidateBuckets := ["metal"], ordering := ["steady"] },
    length := some 4 }

def tW1 : Track := ⟨"w1", "uw1", "one", false, 100000, 50, "", [xArtist]⟩

def tW2 : Track := ⟨"w2", "uw2", "two", false, 110000, 50, "", [xArtist]⟩

def tW3 : Track := ⟨"w3", "uw3", "three", false, 120000, 50, "", [xArtist]⟩

def tW4 : Track := ⟨"w4", "uw4", "four", false, 130000, 50, "", [xArtist]⟩

/-- The selector output picking the four library tracks above. -/
def libPicks : SelectorResult :=
  ⟨[⟨some "w1", none, none⟩, ⟨some "w2", none, none⟩,
    ⟨some "w3", none, none⟩, ⟨some "w4", none, none⟩]⟩

/-- A run that succeeds at stage 3 from the library alone: four clean,
popular pool tracks, all picked by the selector. -/
def envLib : Env :=
  { recent := [tW1, tW2, tW3, tW4], topShort := [], topMedium := [], saved := [],
    me := none, search := fun _ => [], artists := artists50,
    selector := .ok libPicks }

def libRun : Except PyErr (BuildPreview × SearchLog) :=
  previewE envLib calmPlan 4 [] [] 35 35

/-- The same library run with a disallowed id that never occurs. -/
def libRunDis : Except PyErr (BuildPreview × SearchLog) :=
  previewE envLib calmPlan 4 ["zz"] [] 35 35

/-- The library run under the clean-only plan. -/
def cleanRun : Except PyErr (BuildPreview × SearchLog) :=
  previewE envLib cleanPlan 4 [] [] 35 35

def tA : Track := ⟨"a", "u", "alpha", false, 100000, 50, "", [xArtist]⟩

def tB : Track := ⟨"b", "u", "beta", false, 110000, 50, "", [xArtist]⟩

def tE : Track := ⟨"e", "ue", "song", false, 200000, 50, "", [xArtist]⟩

def tF : Track := ⟨"f", "uf", "Song", false, 200000, 50, "Z", [xArtist]⟩

/-- The C2 environment: `tA`/`tB` share a uri; the outside pick resolves to
`tE` (no ISRC) and the backfill search returns `tF`, which carries ISRC `Z`
but the same normalized title/artist/duration as `tE`. -/
def envC2 : Env :=
  { recent := [tA, tB], topShort := [], topMedium := [], saved := [],
    me := none,
    search := fun q =>
      if q = "Song X" then [tE] else if q = "calm calm" then [tF] else [],
    artists := artists50,
    selector := .ok ⟨[⟨some "a", none, none⟩, ⟨some "b", none, none⟩,
                      ⟨none, some "Song", some "X"⟩]⟩ }

def c2Run : Except PyErr (BuildPreview × SearchLog) :=
  previewE envC2 calmPlan 4 [] [] 35 35

def tS1 : Track := ⟨"s1", "us1", "Song", false, 100000, 50, "", [xArtist]⟩

def tS2 : Track := ⟨"s2", "us2", "two", false, 110000, 50, "", [xArtist]⟩

def tS3 : Track := ⟨"s3", "us3", "three", false, 120000, 50, "", [xArtist]⟩

def tS4 : Track := ⟨"s4", "us4", "four", false, 130000, 50, "", [xArtist]⟩

/-- The C3 environment: the pool contains a track whose (title, artist) is
exactly a caller-disallowed pair, and the selector picks it. -/
def envC3 : Env :=
  { recent := [tS1, tS2, tS3, tS4], topShort := [], topMedium := [], saved := [],
    me := none, search := fun _ => [], artists := artists50,
    selector := .ok ⟨[⟨some "s1", none, none⟩, ⟨some "s2", none, none⟩,
                      ⟨some "s3", none, none⟩, ⟨some "s4", none, none⟩]⟩ }

def c3Run : Except PyErr (BuildPreview × SearchLog) :=
  previewE envC3 calmPlan 4 [] [("song", "x")] 35 35

def tG1 : Track := ⟨"g1", "ug1", "gone", false, 100000, 50, "", [xArtist]⟩

def tG2 : Track := ⟨"g2", "ug2", "gtwo", false, 110000, 50, "", [xArtist]⟩

def tG3 : Track := ⟨"g3", "ug3", "gthree", false, 120000, 50, "", [xArtist]⟩

def tG4 : Track := ⟨"g4", "ug4", "gfour", false, 130000, 50, "", [xArtist]⟩

/-- A search that returns the same four clean, popular tracks for every
query. -/
def searchG : String → List Track := fun _ => [tG1, tG2, tG3, tG4]

/-- The C5 environment with a selector that failed both attempts. -/
def envSelFail : Env :=
  { recent := [], topShort := [], topMedium := [], saved := [],
    me := none, search := searchG, artists := artists50,
    selector := .error () }

/-- The same environment with a working selector whose single outside pick
resolves from search. -/
def envSelOk : Env :=
  { envSelFail with selector := .ok ⟨[⟨none, some "nope", some "nobody"⟩]⟩ }

def selOkRun : Except PyErr (BuildPreview × SearchLog) :=
  previewE envSelOk calmPlan 4 [] [] 35 35

/-- An oracle that fails validation on every attempt. -/
def oracleFail : List Msg → Option SelectorResult := fun _ => none

/-- The C8 environment: no library sources, every search returns the same
four tracks of popularity 50, and NO artist metadata resolves (so every
candidate has best artist popularity 0 and no matching genre), under a plan
that derives the metal genre family. -/
def envC8 : Env :=
  { recent := [], topShort := [], topMedium := [], saved := [],
    me := none, search := searchG, artists := fun _ => none,
    selector := .ok ⟨[⟨none, some "nope", some "nobody"⟩]⟩ }

def c8Run : Except PyErr (BuildPreview × SearchLog) :=
  previewE envC8 metalPlan 4 [] [] 35 35

/-- Plans differing only in candidate buckets (same tags, same themes). -/
def plan9a : MoodPlan :=
  { normalizedMood := "calm", intent := "focus", semanticTags := ["calm"],
    constraints := { energy := none, danceability := none, explicitAllowed := none },
    plan := { themes := ["night"], candidateBuckets := ["metal"], ordering := ["x"] },
    length := some 4 }

def plan9b : MoodPlan :=
  { plan9a with
    plan := { themes := ["night"], candidateBuckets := ["calm"], ordering := ["x"] } }

/-- A track above the relaxed popularity floor, for the C7 witness. -/
def tC7 : Track := ⟨"c7", "uc7", "n", false, 1000, 20, "", []⟩

/-- A track below the relaxed floor `max(10, 35 // 2) = 17`. -/
def tL : Track := ⟨"l1", "ul1", "low", false, 100000, 12, "", [xArtist]⟩

/-- The quota-failure environment: empty sources, unknown artists, and every
search returning only the below-floor track `tL`. -/
def envC8w : Env :=
  { recent := [], topShort := [], topMedium := [], saved := [],
    me := none, search := fun _ => [tL], artists := fun _ => none,
    selector := .ok ⟨[⟨none, some "nope", some "nobody"⟩]⟩ }

def c8wRun : Except PyErr (BuildPreview × SearchLog) :=
  previewE envC8w metalPlan 4 [] [] 35 35

/-! ## Lemmas -/

theorem compactTrack_id (t : Track) : (compactTrack t).id = t.id := rfl

theorem compactTrack_explicit (t : Track) : (compactTrack t).explicit = t.explicit := rfl

theorem compactTrack_uri (t : Track) : (compactTrack t).uri = t.uri := rfl

/-! ### `dedupFirst` -/

theorem dedupFirstAux_mem [DecidableEq α] (acc l : List α) (a : α) :
    a ∈ dedupFirstAux acc l ↔ a ∈ acc ∨ a ∈ l := by
  induction l generalizing acc with
  | nil => simp [dedupFirstAux]
  | cons x xs ih =>
    simp only [dedupFirstAux]
    split
    · rw [ih]
      constructor
      · rintro (h | h)
        · exact Or.inl h
        · exact Or.inr (List.mem_cons_of_mem _ h)
      · rintro (h | h)
        · exact Or.inl h
        · rcases List.mem_cons.mp h with rfl | h
          · exact Or.inl (by assumption)
          · exact Or.inr h
    · rw [ih]
      simp only [List.mem_append, List.mem_singleton, List.mem_cons]
      tauto

theorem dedupFirstAux_nodup [DecidableEq α] (acc l : List α) (h : acc.Nodup) :
    (dedupFirstAux acc l).Nodup := by
  induction l generalizing acc with
  | nil => simpa [dedupFirstAux]
  | cons x xs ih =>
    simp only [dedupFirstAux]
    split
    · exact ih acc h
    · refine ih _ ?_
      simpa [List.nodup_append, h] using (by assumption : ¬x ∈ acc)

theorem dedupFirst_mem [DecidableEq α] (l : List α) (a : α) :
    a ∈ dedupFirst l ↔ a ∈ l := by
  simp [dedupFirst, dedupFirstAux_mem]

theorem dedupFirst_nodup [DecidableEq α] (l : List α) : (dedupFirst l).Nodup :=
  dedupFirstAux_nodup [] l List.nodup_nil

/-! ### Genre-token derivation -/

theorem scanFamilies_mem (text : String) (fams : List (String × List String))
    (t : String) :
    t ∈ scanFamilies text fams ↔
      ∃ fam ∈ fams, (∃ tok ∈ fam.2, substrB tok text = true) ∧ t ∈ fam.2 := by
  induction fams with
  | nil => simp [scanFamilies]
  | cons fam rest ih =>
    simp only [scanFamilies, List.mem_append, ih]
    constructor
    · rintro (h | ⟨f, hf, htrig, ht⟩)
      · by_cases htrig : fam.2.any (fun tok => substrB tok text) = true
        · rw [if_pos htrig] at h
          exact ⟨fam, List.mem_cons_self _ _, (List.any_eq_true.mp htrig).imp
            (fun tok h => ⟨h.1, h.2⟩), h⟩
        · rw [if_neg htrig] at h
          exact absurd h (List.not_mem_nil t)
      · exact ⟨f, List.mem_cons_of_mem _ hf, htrig, ht⟩
    · rintro ⟨f, hf, htrig, ht⟩
      rcases List.mem_cons.mp hf with rfl | hf
      · left
        rw [if_pos (List.any_eq_true.mpr (htrig.imp fun tok h => ⟨h.1, h.2⟩))]
        exact ht
      · exact Or.inr ⟨f, hf, htrig, ht⟩

theorem deriveGenreTokens_eq_of_planText (p q : MoodPlan)
    (h : planText p = planText q) :
    deriveGenreTokens p = deriveGenreTokens q := by
  simp [deriveGenreTokens, h]

theorem deriveGenreTokens_mem (p : MoodPlan) (t : String) :
    t ∈ deriveGenreTokens p ↔
      ∃ fam ∈ genreMap, (∃ tok ∈ fam.2, substrB tok (planText p) = true) ∧
        t ∈ fam.2 := by
  rw [deriveGenreTokens, deriveFromText, dedupFirst_mem, scanFamilies_mem]

theorem deriveGenreTokens_nodup (p : MoodPlan) : (deriveGenreTokens p).Nodup :=
  dedupFirst_nodup _

/-! ### Popularity-descending sort -/

theorem insertByPopDesc_mem (t x : Track) (l : List Track) :
    x ∈ insertByPopDesc t l ↔ x = t ∨ x ∈ l := by
  induction l with
  | nil => simp [insertByPopDesc]
  | cons y ys ih =>
    simp only [insertByPopDesc]
    split
    · simp
    · simp only [List.mem_cons, ih]
      tauto

theorem sortByPopDesc_mem (l : List Track) (x : Track) :
    x ∈ sortByPopDesc l ↔ x ∈ l := by
  induction l with
  | nil => simp [sortByPopDesc]
  | cons y ys ih => simp [sortByPopDesc, insertByPopDesc_mem, ih]

/-! ### The popularity/genre guard -/

/-- The two best-artist-popularity accumulations (the one in
`_passes_popularity` counting a missing doc as popularity `0`, and the one in
`_apply_artist_pop_and_genre_filters` skipping missing docs) agree. -/
theorem applyBest_eq_bestArtistPop (lookup : String → Option ArtistDoc)
    (t : Track) : applyBest lookup t = bestArtistPop lookup t := by
  unfold applyBest bestArtistPop trackArtistIds
  generalize t.artists = as
  suffices h : ∀ b : Nat,
      (as.foldl (fun best a =>
        if a.id = "" then best
        else match lookup a.id with
          | none => best
          | some d => max best d.popularity) b) =
      ((as.filterMap fun a => if a.id = "" then none else some a.id).foldl
        (fun best aid => max best (((lookup aid).map ArtistDoc.popularity).getD 0)) b) by
    exact h 0
  induction as with
  | nil => intro b; simp
  | cons a as ih =>
    intro b
    by_cases ha : a.id = ""
    · simp only [List.foldl_cons, List.filterMap_cons, if_pos ha]
      exact ih b
    · simp only [List.foldl_cons, List.filterMap_cons, if_neg ha]
      cases hl : lookup a.id with
      | none => simpa [hl] using ih b
      | some d => simpa [hl] using ih (max b d.popularity)

theorem applyFilters_subset (lookup : String → Option ArtistDoc)
    (items : List Track) (toks : List String) (mT mA : Nat) (t : Track)
    (h : t ∈ (applyArtistPopGenreFilters lookup items toks mT mA).1) :
    t ∈ items := by
  induction items with
  | nil => simp [applyArtistPopGenreFilters] at h
  | cons c cs ih =>
    simp only [applyArtistPopGenreFilters] at h
    split at h
    · exact List.mem_cons_of_mem _ (ih h)
    · split at h
      · exact List.mem_cons_of_mem _ (ih h)
      · split at h
        · exact List.mem_cons_of_mem _ (ih h)
        · rcases List.mem_cons.mp h with rfl | h
          · exact List.mem_cons_self _ _
          · exact List.mem_cons_of_mem _ (ih h)

theorem applyFilters_artist_pop (lookup : String → Option ArtistDoc)
    (items : List Track) (toks : List String) (mT mA : Nat) (t : Track)
    (h : t ∈ (applyArtistPopGenreFilters lookup items toks mT mA).1) :
    mA ≤ applyBest lookup t ∧ mT ≤ t.popularity := by
  induction items with
  | nil => simp [applyArtistPopGenreFilters] at h
  | cons c cs ih =>
    simp only [applyArtistPopGenreFilters] at h
    split at h
    · exact ih h
    · split at h
      · exact ih h
      · split at h
        · exact ih h
        · rcases List.mem_cons.mp h with rfl | h
          · exact ⟨Nat.le_of_not_lt (by assumption), Nat.le_of_not_lt (by assumption)⟩
          · exact ih h

theorem applyFilters_nil_of_low_artist_pop (lookup : String → Option ArtistDoc)
    (items : List Track) (toks : List String) (mT mA : Nat)
    (h : ∀ t ∈ items, bestArtistPop lookup t < mA) :
    (applyArtistPopGenreFilters lookup items toks mT mA).1 = [] := by
  induction items with
  | nil => simp [applyArtistPopGenreFilters]
  | cons c cs ih =>
    have hc : applyBest lookup c < mA := by
      rw [applyBest_eq_bestArtistPop]; exact h c (List.mem_cons_self _ _)
    have hcs := ih fun t ht => h t (List.mem_cons_of_mem _ ht)
    by_cases h1 : c.popularity < mT
    · simp only [applyArtistPopGenreFilters, if_pos h1]
      exact hcs
    · simp only [applyArtistPopGenreFilters, if_neg h1, if_pos hc]
      exact hcs

/-! ### `_search_and_pick` -/

theorem earlyFilter_mem (wc : Bool) (seen : List String) (items : List Track)
    (c : Track) (h : c ∈ earlyFilter wc seen items) :
    c ∈ items ∧ c.id ≠ "" ∧ c.id ∉ seen ∧ (wc = true → c.explicit = false) := by
  rcases List.mem_filter.mp h with ⟨hmem, hp⟩
  simp only [Bool.and_eq_true, Bool.not_eq_true', beq_eq_false_iff_ne,
    decide_eq_false_iff_not] at hp
  refine ⟨hmem, hp.1.1, hp.1.2, ?_⟩
  intro hwc
  rcases hp with ⟨-, h2⟩
  cases hex : c.explicit
  · rfl
  · rw [hwc, hex] at h2
    simp at h2

theorem pickPreferred_mem (q : String) (l : List Track) (c : Track)
    (h : pickPreferred q l = some c) : c ∈ l := by
  simp only [pickPreferred] at h
  split at h
  · cases h
    exact List.mem_of_find?_eq_some (by assumption)
  · cases l with
    | nil => simp at h
    | cons x xs =>
      simp only [List.head?] at h
      cases h
      exact List.mem_cons_self _ _

theorem searchAndPick_some (env : Env) (q : String) (wc : Bool)
    (seen : List String) (toks : List String) (mT mA : Nat) (c : Track)
    (h : (searchAndPick env q wc seen toks mT mA).1 = some c) :
    c ∈ env.search q ∧ c.id ≠ "" ∧ c.id ∉ seen ∧
      (wc = true → c.explicit = false) ∧ mA ≤ bestArtistPop env.artists c := by
  unfold searchAndPick at h
  simp only at h
  have hmem := pickPreferred_mem _ _ _ h
  have hsub := applyFilters_subset _ _ _ _ _ _ hmem
  have hpop := (applyFilters_artist_pop _ _ _ _ _ _ hmem).1
  rw [applyBest_eq_bestArtistPop] at hpop
  have he := earlyFilter_mem _ _ _ _ hsub
  exact ⟨he.1, he.2.1, he.2.2.1, he.2.2.2, hpop⟩

theorem searchAndPick_none_of_low_artist_pop (env : Env) (q : String) (wc : Bool)
    (seen : List String) (toks : List String) (mT mA : Nat)
    (h : ∀ t ∈ env.search q, bestArtistPop env.artists t < mA) :
    (searchAndPick env q wc seen toks mT mA).1 = none := by
  unfold searchAndPick
  simp only
  rw [applyFilters_nil_of_low_artist_pop]
  · rfl
  · intro t ht
    exact h t (earlyFilter_mem _ _ _ _ ht).1

/-! ### The candidate pool -/

theorem insertTracks_mem (dis : List String) (pool : List (String × Track))
    (ts : List Track) (e : String × Track)
    (h : e ∈ (insertTracks dis pool ts).1) : e ∈ pool ∨ e.2 ∈ ts := by
  induction ts generalizing pool with
  | nil => exact Or.inl h
  | cons t rest ih =>
    simp only [insertTracks] at h
    split at h
    · rcases ih _ h with h | h
      · exact Or.inl h
      · exact Or.inr (List.mem_cons_of_mem _ h)
    · split at h
      · rcases ih _ h with h | h
        · exact Or.inl h
        · exact Or.inr (List.mem_cons_of_mem _ h)
      · split at h
        · rcases ih _ h with h | h
          · exact Or.inl h
          · exact Or.inr (List.mem_cons_of_mem _ h)
        · rcases ih _ h with h | h
          · rcases List.mem_append.mp h with h | h
            · exact Or.inl h
            · rcases List.mem_singleton.mp h with rfl
              exact Or.inr (List.mem_cons_self _ _)
          · exact Or.inr (List.mem_cons_of_mem _ h)

theorem insertTracks_wf (dis : List String) (pool : List (String × Track))
    (ts : List Track)
    (hwf : ∀ e ∈ pool, e.1 = e.2.id ∧ e.1 ∉ dis ∧ e.1 ≠ "" ∧ e.2.uri ≠ "") :
    ∀ e ∈ (insertTracks dis pool ts).1,
      e.1 = e.2.id ∧ e.1 ∉ dis ∧ e.1 ≠ "" ∧ e.2.uri ≠ "" := by
  induction ts generalizing pool with
  | nil => exact hwf
  | cons t rest ih =>
    simp only [insertTracks]
    split
    · exact ih _ hwf
    · split
      · exact ih _ hwf
      · split
        · exact ih _ hwf
        · rename_i hids hdis hdup
          refine ih _ ?_
          intro e he
          rcases List.mem_append.mp he with he | he
          · exact hwf e he
          · rcases List.mem_singleton.mp he with rfl
            push_neg at hids
            exact ⟨rfl, hdis, hids.1, hids.2⟩

theorem collectPool_wf (env : Env) (dis : List String) :
    ∀ e ∈ (collectPool env dis).1,
      e.1 = e.2.id ∧ e.1 ∉ dis ∧ e.1 ≠ "" ∧ e.2.uri ≠ "" := by
  unfold collectPool
  simp only
  apply insertTracks_wf
  apply insertTracks_wf
  apply insertTracks_wf
  apply insertTracks_wf
  intro e he
  exact absurd he (List.not_mem_nil e)

theorem collectPool_sources (env : Env) (dis : List String) (e : String × Track)
    (h : e ∈ (collectPool env dis).1) :
    e.2 ∈ env.recent ∨ e.2 ∈ env.topShort ∨ e.2 ∈ env.topMedium ∨
      e.2 ∈ env.saved := by
  unfold collectPool at h
  simp only at h
  rcases insertTracks_mem _ _ _ _ h with h | h
  · rcases insertTracks_mem _ _ _ _ h with h | h
    · rcases insertTracks_mem _ _ _ _ h with h | h
      · rcases insertTracks_mem _ _ _ _ h with h | h
        · exact absurd h (List.not_mem_nil e)
        · exact Or.inl h
      · exact Or.inr (Or.inl h)
    · exact Or.inr (Or.inr (Or.inl h))
  · exact Or.inr (Or.inr (Or.inr h))

theorem poolFind_mem (pool : List (String × Track)) (k : String) (t : Track)
    (h : poolFind pool k = some t) : (k, t) ∈ pool := by
  unfold poolFind at h
  cases hf : pool.find? fun e => e.1 = k with
  | none => rw [hf] at h; simp at h
  | some e =>
    rw [hf] at h
    simp only [Option.map_some'] at h
    have hmem := List.mem_of_find?_eq_some hf
    have hk := List.find?_some hf
    simp only [decide_eq_true_eq] at hk
    cases h
    rcases e with ⟨k0, t0⟩
    simp only at hk
    rw [← hk]
    exact hmem

/-! ### Resolution of the advisory picks -/

theorem resolveLibPick_some (env : Env) (pool : List (String × Track))
    (dis : List String) (wc : Bool) (toks : List String) (mT mA : Nat)
    (p : Pick) (t : Track)
    (hp : resolveLibPick env pool dis wc toks mT mA p = some t) :
    ∃ lid track, poolFind pool lid = some track ∧ lid ∉ dis ∧
      t = compactTrack track ∧ (wc = true → track.explicit = false) ∧
      passesPopularity env.artists track mT mA = true := by
  unfold resolveLibPick at hp
  split at hp
  · cases hp
  · rename_i lid hlibeq
    split at hp
    · cases hp
    · split at hp
      · cases hp
      · rename_i track hfind
        split at hp
        · cases hp
        · split at hp
          · cases hp
          · split at hp
            · cases hp
            · split at hp
              · cases hp
              · rename_i hdis hcl hpop hgen
                cases hp
                refine ⟨lid, track, hfind, hdis, rfl, ?_, ?_⟩
                · intro hwc
                  cases hex : track.explicit
                  · rfl
                  · exact absurd (by rw [hwc, hex]; rfl) hcl
                · simpa using hpop

theorem resolveLibraryPicks_props (env : Env) (pool : List (String × Track))
    (picks : List Pick) (dis : List String) (wc : Bool) (toks : List String)
    (mT mA : Nat) (hwf : ∀ e ∈ pool, e.1 = e.2.id) :
    ∀ t ∈ resolveLibraryPicks env pool picks dis wc toks mT mA,
      t.id ∉ dis ∧ (wc = true → t.explicit = false) := by
  intro t ht
  rcases List.mem_filterMap.mp ht with ⟨p, -, hp⟩
  rcases resolveLibPick_some _ _ _ _ _ _ _ _ _ hp with
    ⟨lid, track, hfind, hdis, rfl, hcl, -⟩
  have hid : track.id = lid := (hwf _ (poolFind_mem _ _ _ hfind)).symm
  rw [compactTrack_id, compactTrack_explicit, hid]
  exact ⟨hdis, hcl⟩

theorem resolveLibraryPicks_nil_of_unpopular (env : Env)
    (pool : List (String × Track)) (picks : List Pick) (dis : List String)
    (wc : Bool) (toks : List String) (mT mA : Nat)
    (h : ∀ e ∈ pool, passesPopularity env.artists e.2 mT mA = false) :
    resolveLibraryPicks env pool picks dis wc toks mT mA = [] := by
  rw [resolveLibraryPicks, List.filterMap_eq_nil_iff]
  intro p hp
  cases hres : resolveLibPick env pool dis wc toks mT mA p with
  | none => rfl
  | some t =>
    rcases resolveLibPick_some _ _ _ _ _ _ _ _ _ hres with
      ⟨lid, track, hfind, -, -, -, hpop⟩
    have := h _ (poolFind_mem _ _ _ hfind)
    simp only at this
    rw [this] at hpop
    cases hpop

theorem resolveOutsidePicks_chosen_mem (env : Env) (wc : Bool)
    (dis : List String) (toks : List String) (mT mA : Nat) (picks : List Pick)
    (t : Track)
    (ht : t ∈ (resolveOutsidePicks env wc dis toks mT mA picks).chosen) :
    t.id ∉ dis ∧ t.id ≠ "" ∧ (wc = true → t.explicit = false) := by
  induction picks with
  | nil => exact absurd ht (List.not_mem_nil t)
  | cons p ps ih =>
    simp only [resolveOutsidePicks] at ht
    split at ht
    · exact ih ht
    · split at ht
      · exact ih ht
      · split at ht
        · rename_i c rej hpick
          rcases List.mem_cons.mp ht with rfl | ht
          · have hc := searchAndPick_some _ _ _ _ _ _ _ _
              (by rw [hpick] : (searchAndPick env _ wc dis toks mT mA).1 = some c)
            rw [compactTrack_id, compactTrack_explicit]
            exact ⟨hc.2.2.1, hc.2.1, hc.2.2.2.1⟩
          · exact ih ht
        · exact ih ht

theorem resolveOutsidePicks_chosen_nil (env : Env) (wc : Bool)
    (dis : List String) (toks : List String) (mT mA : Nat) (picks : List Pick)
    (h : ∀ q, ∀ t ∈ env.search q, bestArtistPop env.artists t < mA) :
    (resolveOutsidePicks env wc dis toks mT mA picks).chosen = [] := by
  induction picks with
  | nil => rfl
  | cons p ps ih =>
    simp only [resolveOutsidePicks]
    split
    · exact ih
    · split
      · exact ih
      · split
        · rename_i c rej hpick
          have hnone := searchAndPick_none_of_low_artist_pop env
            (p.title.getD "" ++ " " ++ p.artist.getD "") wc dis toks mT mA (h _)
          rw [Prod.ext_iff] at hpick
          rw [hnone] at hpick
          cases hpick.1
        · exact ih

/-! ### The shared pipeline invariant -/

/-- The invariant tying the assembled unique list to the seen set: the
disallowed ids stay inside `seen`, every assembled track has a truthy id that
is recorded in `seen`, lies outside the disallowed set and respects the
explicit policy, and the assembled ids are pairwise distinct. -/
def SInv (dis : List String) (wc : Bool) (uniq : List Track)
    (seen : List String) : Prop :=
  (∀ x ∈ dis, x ∈ seen) ∧
  (∀ t ∈ uniq, t.id ≠ "" ∧ t.id ∉ dis ∧ t.id ∈ seen ∧
    (wc = true → t.explicit = false)) ∧
  (uniq.map Track.id).Nodup

/-- `SInv` plus the slot accounting `length + need = K` of a backfill state. -/
def BInv (dis : List String) (wc : Bool) (K : Nat) (st : BState) : Prop :=
  SInv dis wc st.uniq st.seen ∧ st.uniq.length + st.need = K

theorem SInv_accept (dis : List String) (wc : Bool) (uniq : List Track)
    (seen : List String) (t : Track) (hinv : SInv dis wc uniq seen)
    (hid : t.id ≠ "") (hseen : t.id ∉ seen)
    (hexp : wc = true → t.explicit = false) :
    SInv dis wc (uniq ++ [t]) (t.id :: seen) := by
  obtain ⟨hds, hu, hnd⟩ := hinv
  refine ⟨fun x hx => List.mem_cons_of_mem _ (hds x hx), ?_, ?_⟩
  · intro s hs
    rcases List.mem_append.mp hs with hs | hs
    · have := hu s hs
      exact ⟨this.1, this.2.1, List.mem_cons_of_mem _ this.2.2.1, this.2.2.2⟩
    · rcases List.mem_singleton.mp hs with rfl
      exact ⟨hid, fun hd => hseen (hds _ hd), List.mem_cons_self _ _, hexp⟩
  · rw [List.map_append]
    refine List.Nodup.append hnd (by simp) ?_
    intro x hx hx2
    simp only [List.map_cons, List.map_nil, List.mem_singleton] at hx2
    subst hx2
    rcases List.mem_map.mp hx with ⟨s, hs, hxid⟩
    exact hseen (hxid ▸ (hu s hs).2.2.1)

theorem SInv_grow (dis : List String) (wc : Bool) (uniq : List Track)
    (seen : List String) (x : String) (hinv : SInv dis wc uniq seen) :
    SInv dis wc uniq (x :: seen) := by
  obtain ⟨hds, hu, hnd⟩ := hinv
  refine ⟨fun y hy => List.mem_cons_of_mem _ (hds y hy), ?_, hnd⟩
  intro t ht
  have := hu t ht
  exact ⟨this.1, this.2.1, List.mem_cons_of_mem _ this.2.2.1, this.2.2.2⟩

/-! ### Stage 3 lemmas -/

theorem dedupClampAux_SInv (dis : List String) (wc : Bool) (N : Nat)
    (l : List Track) (u : List Track) (s k : List String)
    (hinv : SInv dis wc u s) (hl : ∀ t ∈ l, wc = true → t.explicit = false) :
    SInv dis wc (dedupClampAux N l u s k).1 (dedupClampAux N l u s k).2.1 := by
  induction l generalizing u s k with
  | nil => exact hinv
  | cons t rest ih =>
    simp only [dedupClampAux]
    split
    · refine ih _ _ _ ?_ fun x hx => hl x (List.mem_cons_of_mem _ hx)
      split
      · exact hinv
      · exact SInv_grow _ _ _ _ _ hinv
    · rename_i hskip
      push_neg at hskip
      have hacc := SInv_accept dis wc u s t hinv hskip.1 hskip.2.1
        (hl t (List.mem_cons_self _ _))
      split
      · exact hacc
      · exact ih _ _ _ hacc fun x hx => hl x (List.mem_cons_of_mem _ hx)

theorem dedupClampAux_len (N : Nat) (l : List Track) (u : List Track)
    (s k : List String) (h : u.length < N) :
    (dedupClampAux N l u s k).1.length ≤ N := by
  induction l generalizing u s k with
  | nil => exact Nat.le_of_lt h
  | cons t rest ih =>
    simp only [dedupClampAux]
    split
    · exact ih _ _ _ h
    · have hlen : (u ++ [t]).length ≤ N := by
        rw [List.length_append, List.length_singleton]
        exact h
      split
      · exact hlen
      · rename_i hlt
        push_neg at hlt
        exact ih _ _ _ hlt

/-! ### Stage 4 and 5 state lemmas -/

theorem backfillAccept_BInv (dis : List String) (wc : Bool) (K : Nat)
    (st : BState) (cs : List Track) (h : BInv dis wc K st) :
    BInv dis wc K (backfillAccept wc st cs) := by
  induction cs generalizing st with
  | nil => exact h
  | cons c rest ih =>
    simp only [backfillAccept]
    split
    · exact h
    · split
      · exact ih _ h
      · split
        · exact ih _ h
        · rename_i hneed hskip hcl
          push_neg at hskip
          refine ih _ ⟨?_, ?_⟩
          · have := SInv_accept dis wc st.uniq st.seen (compactTrack c) h.1
              (by rw [compactTrack_id]; exact hskip.1)
              (by rw [compactTrack_id]; exact hskip.2.1)
              (by
                rw [compactTrack_explicit]
                intro hwc
                cases hex : c.explicit
                · rfl
                · exact absurd (by rw [hwc, hex]; rfl) hcl)
            simpa [compactTrack_id] using this
          · have hk := h.2
            simp only [List.length_append, List.length_singleton]
            omega

theorem backfillLoop_BInv (env : Env) (toks : List String) (dis : List String)
    (wc : Bool) (K : Nat) (mT mA : Nat) (qs : List String) (st : BState)
    (h : BInv dis wc K st) :
    BInv dis wc K (backfillLoop env toks wc mT mA qs st) := by
  induction qs generalizing st with
  | nil => exact h
  | cons q rest ih =>
    simp only [backfillLoop]
    split
    · exact h
    · exact ih _ (backfillAccept_BInv _ _ _ _ _ ⟨h.1, h.2⟩)

theorem relaxedAccept_eq_true (wc : Bool) (mT : Nat) (seen keys : List String)
    (c : Track) :
    relaxedAccept wc mT seen keys c = true ↔
      c.id ≠ "" ∧ c.id ∉ seen ∧ contentKey c ∉ keys ∧
        (wc = true → c.explicit = false) ∧ popFloor mT ≤ c.popularity := by
  unfold relaxedAccept
  by_cases h1 : c.id = "" ∨ c.id ∈ seen ∨ contentKey c ∈ keys
  · rw [if_pos h1]
    refine iff_of_false (by simp) ?_
    rintro ⟨hid, hseen, hkeys, -, -⟩
    rcases h1 with h | h | h
    · exact hid h
    · exact hseen h
    · exact hkeys h
  · rw [if_neg h1]
    push_neg at h1
    by_cases h2 : (wc && c.explicit) = true
    · rw [if_pos h2]
      refine iff_of_false (by simp) ?_
      rintro ⟨-, -, -, hcl, -⟩
      rcases Bool.and_eq_true_iff.mp h2 with ⟨hwc, hex⟩
      rw [hcl hwc] at hex
      cases hex
    · rw [if_neg h2]
      by_cases h3 : c.popularity < popFloor mT
      · rw [if_pos h3]
        refine iff_of_false (by simp) ?_
        rintro ⟨-, -, -, -, hfloor⟩
        exact absurd hfloor (Nat.not_le_of_lt h3)
      · rw [if_neg h3]
        refine iff_of_true rfl ?_
        refine ⟨h1.1, h1.2.1, h1.2.2, ?_, Nat.le_of_not_lt h3⟩
        intro hwc
        cases hex : c.explicit
        · rfl
        · exact absurd (by rw [hwc, hex]; rfl) h2

theorem relaxedAcceptLoop_BInv (dis : List String) (wc : Bool) (K : Nat)
    (mT : Nat) (st : BState) (cs : List Track) (h : BInv dis wc K st) :
    BInv dis wc K (relaxedAcceptLoop wc mT st cs) := by
  induction cs generalizing st with
  | nil => exact h
  | cons c rest ih =>
    simp only [relaxedAcceptLoop]
    split
    · exact h
    · split
      · rename_i hneed hacc
        rcases (relaxedAccept_eq_true _ _ _ _ _).mp hacc with
          ⟨hid, hseen, hkeys, hcl, -⟩
        refine ih _ ⟨?_, ?_⟩
        · have := SInv_accept dis wc st.uniq st.seen (compactTrack c) h.1
            (by rw [compactTrack_id]; exact hid)
            (by rw [compactTrack_id]; exact hseen)
            (by rw [compactTrack_explicit]; exact hcl)
          simpa [compactTrack_id] using this
        · have hk := h.2
          simp only [List.length_append, List.length_singleton]
          omega
      · exact ih _ h

theorem relaxedLoop_BInv (search : String → List Track) (dis : List String)
    (wc : Bool) (K : Nat) (mT : Nat) (qs : List String) (st : BState)
    (h : BInv dis wc K st) :
    BInv dis wc K (relaxedLoop search wc mT qs st) := by
  induction qs generalizing st with
  | nil => exact h
  | cons q rest ih =>
    simp only [relaxedLoop]
    split
    · exact h
    · exact ih _ (relaxedAcceptLoop_BInv _ _ _ _ _ _ ⟨h.1, h.2⟩)

/-! ### Stage composition lemmas -/

theorem clampN_pos (length : Nat) : 0 < clampN length := by
  unfold clampN
  omega

theorem chosenOf_explicit (env : Env) (plan : MoodPlan) (dis : List String)
    (mT mA : Nat) (res : SelectorResult) :
    ∀ t ∈ chosenOf env plan dis mT mA res,
      wantCleanOf env plan = true → t.explicit = false := by
  intro t ht
  rcases List.mem_append.mp ht with ht | ht
  · exact (resolveLibraryPicks_props _ _ _ _ _ _ _ _
      (fun e he => (collectPool_wf env dis e he).1) t ht).2
  · exact (resolveOutsidePicks_chosen_mem _ _ _ _ _ _ _ _ ht).2.2

theorem stage3Of_SInv (env : Env) (plan : MoodPlan) (length : Nat)
    (dis : List String) (mT mA : Nat) (res : SelectorResult) :
    SInv dis (wantCleanOf env plan)
      (stage3Of env plan length dis mT mA res).1
      (stage3Of env plan length dis mT mA res).2.1 := by
  refine dedupClampAux_SInv _ _ _ _ _ _ _ ?_ (chosenOf_explicit _ _ _ _ _ _)
  exact ⟨fun x hx => hx, fun t ht => absurd ht (List.not_mem_nil t), List.nodup_nil⟩

theorem stage3Of_len (env : Env) (plan : MoodPlan) (length : Nat)
    (dis : List String) (mT mA : Nat) (res : SelectorResult) :
    (stage3Of env plan length dis mT mA res).1.length ≤ clampN length :=
  dedupClampAux_len _ _ _ _ _ (by simpa using clampN_pos length)

theorem stage4Of_BInv (env : Env) (plan : MoodPlan) (length : Nat)
    (dis : List String) (mT mA : Nat) (res : SelectorResult) :
    BInv dis (wantCleanOf env plan) (clampN length)
      (stage4Of env plan length dis mT mA res) := by
  have hs3 := stage3Of_SInv env plan length dis mT mA res
  have hlen := stage3Of_len env plan length dis mT mA res
  unfold stage4Of
  simp only
  split
  · refine backfillLoop_BInv _ _ _ _ _ _ _ _ _ ⟨hs3, ?_⟩
    simp only
    omega
  · rename_i hge
    push_neg at hge
    exact ⟨hs3, by simp only; omega⟩

theorem finalize_props (N : Nat) (market : Option String) (libSize : Nat)
    (counts : Counts) (fpool : Nat) (ea : String) (wc : Bool)
    (outs : OutsideRes) (rejected : Nat) (disTotal : Nat) (uniq : List Track)
    (P : Track → Prop) (hlen : uniq.length ≤ N)
    (hp : ∀ t ∈ uniq, P t) (hnd : (uniq.map Track.id).Nodup) :
    (finalize N market libSize counts fpool ea wc outs rejected disTotal uniq).uris =
      (finalize N market libSize counts fpool ea wc outs rejected disTotal uniq).tracks.map Track.uri ∧
    ((finalize N market libSize counts fpool ea wc outs rejected disTotal uniq).tracks.length = N ∨
      (finalize N market libSize counts fpool ea wc outs rejected disTotal uniq).tracks = []) ∧
    (∀ t ∈ (finalize N market libSize counts fpool ea wc outs rejected disTotal uniq).tracks, P t) ∧
    ((finalize N market libSize counts fpool ea wc outs rejected disTotal uniq).tracks.map Track.id).Nodup ∧
    ((finalize N market libSize counts fpool ea wc outs rejected disTotal uniq).uris = [] ∨
      (finalize N market libSize counts fpool ea wc outs rejected disTotal uniq).uris.length = N) := by
  unfold finalize
  split
  · simp
  · rename_i hge
    push_neg at hge
    have heq : uniq.length = N := Nat.le_antisymm hlen hge
    refine ⟨rfl, Or.inl heq, hp, hnd, Or.inr ?_⟩
    simpa using heq

/-- The master property bundle of a returned `BuildPreview`: the uris are
exactly the assembled tracks' uris, the result is full-length or empty, every
returned track has a truthy id outside the disallowed set and respects the
clean-only policy, and the returned track ids are pairwise distinct. -/
theorem previewE_ok_props (env : Env) (plan : MoodPlan) (length : Nat)
    (dis : List String) (pairs : List (String × String)) (mT mA : Nat)
    (bp : BuildPreview) (log : SearchLog)
    (h : previewE env plan length dis pairs mT mA = .ok (bp, log)) :
    bp.uris = bp.tracks.map Track.uri ∧
    (bp.tracks.length = clampN length ∨ bp.tracks = []) ∧
    (∀ t ∈ bp.tracks, t.id ≠ "" ∧ t.id ∉ dis ∧
      (wantCleanOf env plan = true → t.explicit = false)) ∧
    (bp.tracks.map Track.id).Nodup ∧
    (bp.uris = [] ∨ bp.uris.length = clampN length) := by
  rcases hsel : env.selector with e | res
  · rw [previewE, hsel] at h
    cases h
  · have hst4 := stage4Of_BInv env plan length dis mT mA res
    rw [previewE, hsel] at h
    simp only at h
    split at h
    · rename_i hshort
      rcases hmw : moodWord plan with - | mw
      · rw [hmw] at h
        cases h
      · rw [hmw] at h
        simp only [Except.ok.injEq, Prod.mk.injEq] at h
        obtain ⟨hbp, -⟩ := h
        subst hbp
        have hreset : BInv dis (wantCleanOf env plan) (clampN length)
            { uniq := (stage4Of env plan length dis mT mA res).uniq,
              seen := (stage4Of env plan length dis mT mA res).seen,
              seenKeys := (stage4Of env plan length dis mT mA res).seenKeys,
              need := clampN length -
                (stage4Of env plan length dis mT mA res).uniq.length,
              rejected := (stage4Of env plan length dis mT mA res).rejected,
              log := [] } := by
          refine ⟨hst4.1, ?_⟩
          have hk := hst4.2
          simp only
          omega
        have hst5 := relaxedLoop_BInv env.search dis (wantCleanOf env plan)
          (clampN length) mT (fallbackQueries (deriveGenreTokens plan) mw) _ hreset
        obtain ⟨⟨hds, hu, hnd⟩, hcnt⟩ := hst5
        refine finalize_props _ _ _ _ _ _ _ _ _ _ _ _ (by omega) ?_ hnd
        intro t ht
        have := hu t ht
        exact ⟨this.1, this.2.1, this.2.2.2⟩
    · simp only [Except.ok.injEq, Prod.mk.injEq] at h
      obtain ⟨hbp, -⟩ := h
      subst hbp
      obtain ⟨⟨hds, hu, hnd⟩, hcnt⟩ := hst4
      refine finalize_props _ _ _ _ _ _ _ _ _ _ _ _ (by omega) ?_ hnd
      intro t ht
      have := hu t ht
      exact ⟨this.1, this.2.1, this.2.2.2⟩

/-! ### Relaxed-pass characterization lemmas -/

theorem relaxedAcceptLoop_log (wc : Bool) (mT : Nat) (st : BState)
    (cs : List Track) : (relaxedAcceptLoop wc mT st cs).log = st.log := by
  induction cs generalizing st with
  | nil => rfl
  | cons c rest ih =>
    simp only [relaxedAcceptLoop]
    split
    · rfl
    · split
      · exact ih _
      · exact ih _

theorem relaxedLoop_log_mem (search : String → List Track) (wc : Bool)
    (mT : Nat) (qs : List String) (st : BState) (q : String)
    (h : q ∈ (relaxedLoop search wc mT qs st).log) : q ∈ st.log ∨ q ∈ qs := by
  induction qs generalizing st with
  | nil => exact Or.inl h
  | cons q0 rest ih =>
    simp only [relaxedLoop] at h
    split at h
    · exact Or.inl h
    · rcases ih _ h with h | h
      · rw [relaxedAcceptLoop_log] at h
        simp only at h
        rcases List.mem_append.mp h with h | h
        · exact Or.inl h
        · rcases List.mem_singleton.mp h with rfl
          exact Or.inr (List.mem_cons_self _ _)
      · exact Or.inr (List.mem_cons_of_mem _ h)

theorem fallbackFold_mem (tokens : List String) (acc : List String) (q : String) :
    q ∈ tokens.foldr
        (fun tok acc =>
          if tok ≠ "" then tok :: (tok ++ " hits") :: (tok ++ " top songs") :: acc
          else acc) acc ↔
      (∃ tok ∈ tokens, tok ≠ "" ∧
        (q = tok ∨ q = tok ++ " hits" ∨ q = tok ++ " top songs")) ∨ q ∈ acc := by
  induction tokens with
  | nil => simp
  | cons tok rest ih =>
    simp only [List.foldr_cons]
    split
    · rename_i hne
      constructor
      · intro hmem
        rcases List.mem_cons.mp hmem with heq | hmem
        · exact Or.inl ⟨tok, List.mem_cons_self _ _, hne, Or.inl heq⟩
        rcases List.mem_cons.mp hmem with heq | hmem
        · exact Or.inl ⟨tok, List.mem_cons_self _ _, hne, Or.inr (Or.inl heq)⟩
        rcases List.mem_cons.mp hmem with heq | hmem
        · exact Or.inl ⟨tok, List.mem_cons_self _ _, hne, Or.inr (Or.inr heq)⟩
        rcases ih.mp hmem with ⟨t, ht, hne2, hq⟩ | h
        · exact Or.inl ⟨t, List.mem_cons_of_mem _ ht, hne2, hq⟩
        · exact Or.inr h
      · rintro (⟨t, ht, hne2, hq⟩ | h)
        · rcases List.mem_cons.mp ht with rfl | ht
          · rcases hq with rfl | rfl | rfl
            · exact List.mem_cons_self _ _
            · exact List.mem_cons_of_mem _ (List.mem_cons_self _ _)
            · exact List.mem_cons_of_mem _
                (List.mem_cons_of_mem _ (List.mem_cons_self _ _))
          · exact List.mem_cons_of_mem _ (List.mem_cons_of_mem _
              (List.mem_cons_of_mem _ (ih.mpr (Or.inl ⟨t, ht, hne2, hq⟩))))
        · exact List.mem_cons_of_mem _ (List.mem_cons_of_mem _
            (List.mem_cons_of_mem _ (ih.mpr (Or.inr h))))
    · rename_i hne
      push_neg at hne
      rw [ih]
      constructor
      · rintro (⟨t, ht, hne2, hq⟩ | h)
        · exact Or.inl ⟨t, List.mem_cons_of_mem _ ht, hne2, hq⟩
        · exact Or.inr h
      · rintro (⟨t, ht, hne2, hq⟩ | h)
        · rcases List.mem_cons.mp ht with rfl | ht
          · exact absurd hne hne2
          · exact Or.inl ⟨t, ht, hne2, hq⟩
        · exact Or.inr h

theorem fallbackQueries_mem (tokens : List String) (mw : String) (q : String) :
    q ∈ fallbackQueries tokens mw ↔
      (∃ tok ∈ tokens, tok ≠ "" ∧
        (q = tok ∨ q = tok ++ " hits" ∨ q = tok ++ " top songs")) ∨
      (mw ≠ "" ∧ (q = mw ∨ q = mw ++ " hits")) := by
  unfold fallbackQueries
  rw [dedupFirst_mem, List.mem_append, fallbackFold_mem]
  constructor
  · rintro ((h | h) | h)
    · exact Or.inl h
    · exact absurd h (List.not_mem_nil q)
    · right
      split at h
      · rename_i hne
        rcases List.mem_cons.mp h with rfl | h
        · exact ⟨hne, Or.inl rfl⟩
        · rcases List.mem_singleton.mp h with rfl
          exact ⟨hne, Or.inr rfl⟩
      · exact absurd h (List.not_mem_nil q)
  · rintro (h | ⟨hne, hq⟩)
    · exact Or.inl (Or.inl h)
    · right
      rw [if_pos hne]
      rcases hq with rfl | rfl
      · exact List.mem_cons_self _ _
      · exact List.mem_cons_of_mem _ (List.mem_singleton.mpr rfl)

/-! ### Quota-failure lemmas -/

theorem passesPopularity_false_of_low_artist_pop
    (lookup : String → Option ArtistDoc) (t : Track) (mT mA : Nat)
    (h : bestArtistPop lookup t < mA) :
    passesPopularity lookup t mT mA = false := by
  unfold passesPopularity
  split
  · rfl
  · simpa using Nat.not_le_of_lt h

theorem relaxedAcceptLoop_const (wc : Bool) (mT : Nat) (st : BState)
    (cs : List Track) (h : ∀ c ∈ cs, c.popularity < popFloor mT) :
    relaxedAcceptLoop wc mT st cs = st := by
  induction cs generalizing st with
  | nil => rfl
  | cons c rest ih =>
    simp only [relaxedAcceptLoop]
    split
    · rfl
    · split
      · rename_i hacc
        rcases (relaxedAccept_eq_true _ _ _ _ _).mp hacc with ⟨-, -, -, -, hfloor⟩
        exact absurd hfloor (Nat.not_le_of_lt (h c (List.mem_cons_self _ _)))
      · exact ih _ fun c hc => h c (List.mem_cons_of_mem _ hc)

theorem relaxedLoop_uniq_const (search : String → List Track) (wc : Bool)
    (mT : Nat) (qs : List String) (st : BState)
    (h : ∀ q, ∀ t ∈ search q, t.popularity < popFloor mT) :
    (relaxedLoop search wc mT qs st).uniq = st.uniq := by
  induction qs generalizing st with
  | nil => rfl
  | cons q rest ih =>
    simp only [relaxedLoop]
    split
    · rfl
    · rw [relaxedAcceptLoop_const wc mT _ _
        (fun c hc => h q c ((sortByPopDesc_mem _ _).mp hc))]
      rw [ih]

theorem backfillLoop_uniq_const (env : Env) (toks : List String) (wc : Bool)
    (mT mA : Nat) (qs : List String) (st : BState)
    (h : ∀ q, (applyArtistPopGenreFilters env.artists (sortByPopDesc (env.search q))
        toks mT mA).1 = []) :
    (backfillLoop env toks wc mT mA qs st).uniq = st.uniq := by
  induction qs generalizing st with
  | nil => rfl
  | cons q rest ih =>
    simp only [backfillLoop]
    split
    · rfl
    · rw [h q]
      simp only [backfillAccept]
      rw [ih]

/-! ### Artist-lookup failure lemmas -/

theorem bestArtistPop_eq_zero (lookup : String → Option ArtistDoc) (t : Track)
    (h : ∀ aid ∈ trackArtistIds t, lookup aid = none) :
    bestArtistPop lookup t = 0 := by
  unfold bestArtistPop
  suffices hgen : ∀ (ids : List String) (b : Nat),
      (∀ aid ∈ ids, lookup aid = none) →
      ids.foldl (fun best aid =>
        max best (((lookup aid).map ArtistDoc.popularity).getD 0)) b = b by
    exact hgen _ 0 h
  intro ids
  induction ids with
  | nil => intro b _; rfl
  | cons aid rest ih =>
    intro b hall
    simp only [List.foldl_cons, hall aid (List.mem_cons_self _ _), Option.map_none',
      Option.getD_none, Nat.max_zero]
    exact ih b fun a ha => hall a (List.mem_cons_of_mem _ ha)

theorem passesPopularity_false_of_unknown_artists
    (lookup : String → Option ArtistDoc) (t : Track) (mT mA : Nat)
    (hA : 0 < mA) (h : ∀ aid ∈ trackArtistIds t, lookup aid = none) :
    passesPopularity lookup t mT mA = false := by
  apply passesPopularity_false_of_low_artist_pop
  rw [bestArtistPop_eq_zero lookup t h]
  exact hA

theorem applyFilters_not_mem_of_unknown_artists
    (lookup : String → Option ArtistDoc) (items : List Track)
    (toks : List String) (mT mA : Nat) (t : Track) (hA : 0 < mA)
    (h : ∀ aid ∈ trackArtistIds t, lookup aid = none) :
    t ∉ (applyArtistPopGenreFilters lookup items toks mT mA).1 := by
  intro hmem
  have hle := (applyFilters_artist_pop _ _ _ _ _ _ hmem).1
  rw [applyBest_eq_bestArtistPop, bestArtistPop_eq_zero lookup t h] at hle
  omega

/-! ## Claim theorems -/

/-- C1: for every plan, requested length, exclusion sets and environment,
whenever `preview` returns a `BuildPreview`, its uris list has exactly the
clamped requested length `clampN length`, or is empty — never a length
strictly between 0 and N, and never longer than N. -/
theorem C1_preview_all_or_nothing (env : Env) (plan : MoodPlan) (length : Nat)
    (dis : List String) (pairs : List (String × String)) (mT mA : Nat)
    (bp : BuildPreview) (log : SearchLog)
    (h : previewE env plan length dis pairs mT mA = .ok (bp, log)) :
    bp.uris.length = clampN length ∨ bp.uris = [] := by
  rcases (previewE_ok_props env plan length dis pairs mT mA bp log h).2.2.2.2 with
    h1 | h1
  · exact Or.inr h1
  · exact Or.inl h1

/-- C1 witness: the concrete library-only run returns exactly 4 uris. -/
theorem C1_witness :
    (okBp libRun).uris.length = clampN 4 ∨ (okBp libRun).uris = [] :=
  C1_preview_all_or_nothing envLib calmPlan 4 [] [] 35 35 (okBp libRun)
    (okLog libRun) rfl

/-- C2 counterexample: a successful preview (4 uris) in which the uris list
DOES contain a duplicate (two library tracks with distinct ids share a uri)
and two returned track records DO share a content key (a stage-2 record and
a backfill record whose raw search candidate carried an ISRC, so its recorded
key differed from the key of its stored compact record).  This refutes the
no-uri-duplicate and no-shared-content-key parts of the claim as stated. -/
theorem C2_counterexample :
    preview envC2 calmPlan 4 [] [] 35 35 = .ok (okBp c2Run) ∧
    (okBp c2Run).uris ≠ [] ∧
    ¬ (okBp c2Run).uris.Nodup ∧
    ¬ ((okBp c2Run).tracks.map contentKey).Nodup :=
  ⟨rfl, by decide, by decide, by decide⟩

/-- C2 (amended): for every successful preview (non-empty uris), the number
of uris equals the clamped requested length, the uris are exactly the
returned track records' uris in order, no two returned records carry the
same track id, and the number of returned records equals the requested
length. -/
theorem C2_successful_preview_shape (env : Env) (plan : MoodPlan)
    (length : Nat) (dis : List String) (pairs : List (String × String))
    (mT mA : Nat) (bp : BuildPreview) (log : SearchLog)
    (h : previewE env plan length dis pairs mT mA = .ok (bp, log))
    (hne : bp.uris ≠ []) :
    bp.uris.length = clampN length ∧ bp.uris = bp.tracks.map Track.uri ∧
      (bp.tracks.map Track.id).Nodup ∧ bp.tracks.length = clampN length := by
  obtain ⟨hmap, htlen, -, hnd, hor⟩ :=
    previewE_ok_props env plan length dis pairs mT mA bp log h
  rcases hor with h1 | h1
  · exact absurd h1 hne
  · refine ⟨h1, hmap, hnd, ?_⟩
    rcases htlen with h2 | h2
    · exact h2
    · rw [h2] at hmap
      simp only [List.map_nil] at hmap
      exact absurd hmap hne

/-- C2 witness: the library-only run has the amended shape. -/
theorem C2_witness :
    (okBp libRun).uris.length = clampN 4 ∧
    (okBp libRun).uris = (okBp libRun).tracks.map Track.uri ∧
    ((okBp libRun).tracks.map Track.id).Nodup ∧
    (okBp libRun).tracks.length = clampN 4 :=
  C2_successful_preview_shape envLib calmPlan 4 [] [] 35 35 (okBp libRun)
    (okLog libRun) rfl (by decide)

/-- C3 counterexample: a successful preview that returns a track whose
(title, artist) case-insensitively matches a caller-supplied disallowed pair
— the pair list is only forwarded to the advisory LLM and is enforced at no
resolution point, so a library pick matching a disallowed pair flows
through.  This refutes the (title, artist) half of the claim. -/
theorem C3_counterexample :
    preview envC3 calmPlan 4 [] [("song", "x")] 35 35 = .ok (okBp c3Run) ∧
    (okBp c3Run).uris.length = 4 ∧
    ((okBp c3Run).tracks.any fun t => pairMatches t "song" "x") = true :=
  ⟨rfl, by decide, by decide⟩

/-- C3 (amended): no track whose id is in the caller-supplied disallowed-id
set ever appears in the result, regardless of which stage produced it. -/
theorem C3_disallowed_ids_excluded (env : Env) (plan : MoodPlan)
    (length : Nat) (dis : List String) (pairs : List (String × String))
    (mT mA : Nat) (bp : BuildPreview) (log : SearchLog)
    (h : previewE env plan length dis pairs mT mA = .ok (bp, log)) :
    ∀ t ∈ bp.tracks, t.id ∉ dis := fun t ht =>
  ((previewE_ok_props env plan length dis pairs mT mA bp log h).2.2.1 t ht).2.1

/-- C3 witness: in the concrete library run with a disallowed id, every
returned track avoids the disallowed set. -/
theorem C3_witness :
    ((okBp libRunDis).tracks.all fun t => !(decide (t.id ∈ ["zz"]))) = true := by
  rw [List.all_eq_true]
  intro t ht
  simp only [Bool.not_eq_true', decide_eq_false_iff_not]
  exact C3_disallowed_ids_excluded envLib calmPlan 4 ["zz"] [] 35 35
    (okBp libRunDis) (okLog libRunDis) rfl t ht

/-- C4: the explicit-content policy resolves exactly as specified (the plan
value wins when "yes"/"no", else the user clean-filter preference, else
explicit is allowed); `explicit_allowed = "no"` always forces clean-only;
and under a clean-only resolution no returned track has its explicit flag
set, at every acceptance point of every stage. -/
theorem C4_explicit_policy :
    (∀ plan uwc, wantClean plan uwc = wantCleanSpec plan uwc) ∧
    (∀ plan uwc, explicitPolicy plan = "no" → wantClean plan uwc = true) ∧
    (∀ env plan length dis pairs mT mA bp log,
      previewE env plan length dis pairs mT mA = .ok (bp, log) →
      wantCleanOf env plan = true → ∀ t ∈ bp.tracks, t.explicit = false) := by
  refine ⟨?_, ?_, ?_⟩
  · intro plan uwc
    cases uwc <;> rfl
  · intro plan uwc hno
    simp [wantClean, hno]
  · intro env plan length dis pairs mT mA bp log h hwc t ht
    exact ((previewE_ok_props env plan length dis pairs mT mA bp log h).2.2.1
      t ht).2.2 hwc

/-- C4 witness: the clean-only library run resolves to clean-only and
returns only non-explicit tracks. -/
theorem C4_witness :
    wantCleanOf envLib cleanPlan = true ∧
    ∀ t ∈ (okBp cleanRun).tracks, t.explicit = false :=
  ⟨by decide,
   C4_explicit_policy.2.2 envLib cleanPlan 4 [] [] 35 35 (okBp cleanRun)
     (okLog cleanRun) rfl (by decide)⟩

/-- C5 counterexample: when the selector has failed both attempts, `preview`
does NOT proceed with an empty advisory pick set — it propagates the error,
even though the very same environment fills the whole quota from search
alone under a working selector (so the fallback passes could have filled
it).  This refutes the orchestrator half of the claim. -/
theorem C5_counterexample :
    preview envSelFail calmPlan 4 [] [] 35 35 = .error PyErr.selectorFailed ∧
    preview envSelOk calmPlan 4 [] [] 35 35 = .ok (okBp selOkRun) ∧
    (okBp selOkRun).uris.length = 4 :=
  ⟨rfl, rfl, by decide⟩

/-- C5 (amended): the selector retries exactly once, the retry inserting the
corrective `REMINDER` system instruction into the message list; a first
success makes one attempt, a failed first attempt makes exactly the two
attempts, and a second failure propagates as a hard error; `preview` then
propagates that error instead of proceeding. -/
theorem C5_selector_retry_and_error :
    (∀ oracle payload r,
      oracle [Msg.system SYSTEM, Msg.user payload] = some r →
      selectTracksModel oracle payload =
        .ok (r, [[Msg.system SYSTEM, Msg.user payload]])) ∧
    (∀ oracle payload r,
      oracle [Msg.system SYSTEM, Msg.user payload] = none →
      oracle [Msg.system SYSTEM, Msg.system REMINDER, Msg.user payload] = some r →
      selectTracksModel oracle payload =
        .ok (r, [[Msg.system SYSTEM, Msg.user payload],
                 [Msg.system SYSTEM, Msg.system REMINDER, Msg.user payload]])) ∧
    (∀ oracle payload,
      oracle [Msg.system SYSTEM, Msg.user payload] = none →
      oracle [Msg.system SYSTEM, Msg.system REMINDER, Msg.user payload] = none →
      selectTracksModel oracle payload = .error ()) ∧
    (∀ env plan length dis pairs mT mA e, env.selector = .error e →
      previewE env plan length dis pairs mT mA = .error PyErr.selectorFailed) := by
  refine ⟨?_, ?_, ?_, ?_⟩
  · intro oracle payload r h
    simp [selectTracksModel, h]
  · intro oracle payload r h1 h2
    simp [selectTracksModel, h1, h2]
  · intro oracle payload h1 h2
    simp [selectTracksModel, h1, h2]
  · intro env plan length dis pairs mT mA e h
    simp [previewE, h]

/-- C5 witness: a doubly-failing oracle yields the hard error, and a failed
selector makes the concrete preview run propagate it. -/
theorem C5_witness :
    selectTracksModel oracleFail "payload" = .error () ∧
    previewE envSelFail calmPlan 4 [] [] 35 35 = .error PyErr.selectorFailed :=
  ⟨C5_selector_retry_and_error.2.2.1 oracleFail "payload" rfl rfl,
   C5_selector_retry_and_error.2.2.2 envSelFail calmPlan 4 [] [] 35 35 () rfl⟩

/-- C6: when stage 3 (dedup + clamp) already assembled the full quota, the
guarded backfill (stage 4) and the relaxed fallback (stage 5) issue zero
search queries — each tier runs only when the prior one left the quota
unmet. -/
theorem C6_no_fallback_search_when_satisfied (env : Env) (plan : MoodPlan)
    (length : Nat) (dis : List String) (pairs : List (String × String))
    (mT mA : Nat) (res : SelectorResult)
    (hsel : env.selector = .ok res)
    (hfull : (stage3Of env plan length dis mT mA res).1.length = clampN length) :
    ∃ bp log, previewE env plan length dis pairs mT mA = .ok (bp, log) ∧
      log.stage4 = [] ∧ log.stage5 = [] := by
  have hlt : ¬ (stage3Of env plan length dis mT mA res).1.length <
      clampN length := by omega
  have hst4eq : stage4Of env plan length dis mT mA res =
      { uniq := (stage3Of env plan length dis mT mA res).1,
        seen := (stage3Of env plan length dis mT mA res).2.1,
        seenKeys := (stage3Of env plan length dis mT mA res).2.2,
        need := 0,
        rejected := (resolveOutsidePicks env (wantCleanOf env plan) dis
          (deriveGenreTokens plan) mT mA res.picks).rejected,
        log := [] } := by
    unfold stage4Of
    simp only
    rw [if_neg hlt]
  rw [previewE, hsel]
  simp only
  rw [hst4eq]
  simp only
  rw [if_neg (by simpa using hlt)]
  exact ⟨_, _, rfl, rfl, rfl⟩

/-- C6 witness: the library-satisfied run issues no stage-4/5 searches. -/
theorem C6_witness :
    ∃ bp log, previewE envLib calmPlan 4 [] [] 35 35 = .ok (bp, log) ∧
      log.stage4 = [] ∧ log.stage5 = [] :=
  C6_no_fallback_search_when_satisfied envLib calmPlan 4 [] [] 35 35 libPicks
    rfl (by decide)

/-- C7: in the relaxed fallback pass a candidate is accepted iff its id and
content key are unseen, it passes the explicit policy, and its popularity is
at least the relaxed floor `max(10, MIN_TRACK_POP // 2)` — no genre or
artist guard; the floor is 17 for `MIN_TRACK_POP = 35`; and every query the
pass issues is derived from the truthy genre tokens (`tok`, `tok hits`,
`tok top songs`) and the first mood word (`mw`, `mw hits`). -/
theorem C7_relaxed_pass_characterization :
    (∀ wc mT seen keys c, relaxedAccept wc mT seen keys c = true ↔
      (c.id ≠ "" ∧ c.id ∉ seen ∧ contentKey c ∉ keys ∧
        (wc = true → c.explicit = false) ∧ popFloor mT ≤ c.popularity)) ∧
    popFloor 35 = 17 ∧
    (∀ tokens mw q, q ∈ fallbackQueries tokens mw ↔
      ((∃ tok ∈ tokens, tok ≠ "" ∧
        (q = tok ∨ q = tok ++ " hits" ∨ q = tok ++ " top songs")) ∨
       (mw ≠ "" ∧ (q = mw ∨ q = mw ++ " hits")))) ∧
    (∀ search wc mT qs st, ∀ q ∈ (relaxedLoop search wc mT qs st).log,
      q ∈ st.log ∨ q ∈ qs) :=
  ⟨relaxedAccept_eq_true, rfl, fallbackQueries_mem,
   fun search wc mT qs st q hq => relaxedLoop_log_mem search wc mT qs st q hq⟩

/-- C7 witness: a clean unseen track of popularity 20 passes the relaxed
floor 17. -/
theorem C7_witness :
    relaxedAccept false 35 [] [] tC7 = true ∧ popFloor 35 = 17 :=
  ⟨(C7_relaxed_pass_characterization.1 false 35 [] [] tC7).mpr (by decide),
   C7_relaxed_pass_characterization.2.1⟩

/-- C8 counterexample: every candidate (the pool is empty; all search
results) has best artist popularity 0 < MIN_ARTIST_POP and matches no derived
genre token, and the plan derives a genre — yet `preview` returns a FULL
(non-empty) result, because the relaxed fallback checks neither artist
popularity nor genre.  This refutes the claim that the result must be
empty under those hypotheses. -/
theorem C8_counterexample :
    (∀ q, ∀ t ∈ envC8.search q, bestArtistPop envC8.artists t < 35) ∧
    deriveGenreTokens metalPlan ≠ [] ∧
    (∀ q, ∀ t ∈ envC8.search q,
      artistGenresMatch envC8.artists t (deriveGenreTokens metalPlan) = false) ∧
    envC8.recent = [] ∧ envC8.topShort = [] ∧ envC8.topMedium = [] ∧
    envC8.saved = [] ∧
    preview envC8 metalPlan 4 [] [] 35 35 = .ok (okBp c8Run) ∧
    (okBp c8Run).uris ≠ [] := by
  refine ⟨?_, by decide, ?_, rfl, rfl, rfl, rfl, rfl, by decide⟩
  · intro q t ht
    exact (by decide :
      ∀ t ∈ [tG1, tG2, tG3, tG4], bestArtistPop envC8.artists t < 35) t ht
  · intro q t ht
    exact (by decide : ∀ t ∈ [tG1, tG2, tG3, tG4],
      artistGenresMatch envC8.artists t (deriveGenreTokens metalPlan) = false) t ht

/-- C8 (amended): when every candidate fails the artist-popularity guard and
the genre guard (with a genre implied), the guarded stages accept nothing;
if additionally every search candidate is below the relaxed floor
`max(10, MIN_TRACK_POP // 2)`, the result is empty — never a short or
non-empty list. -/
theorem C8_quota_failure_empty (env : Env) (plan : MoodPlan) (length : Nat)
    (dis : List String) (pairs : List (String × String)) (mT mA : Nat)
    (hpool : ∀ t, (t ∈ env.recent ∨ t ∈ env.topShort ∨ t ∈ env.topMedium ∨
      t ∈ env.saved) → bestArtistPop env.artists t < mA)
    (hsearch : ∀ q, ∀ t ∈ env.search q, bestArtistPop env.artists t < mA)
    (_hgenre : deriveGenreTokens plan ≠ [])
    (_hnomatch : ∀ q, ∀ t ∈ env.search q,
      artistGenresMatch env.artists t (deriveGenreTokens plan) = false)
    (hrelax : ∀ q, ∀ t ∈ env.search q, t.popularity < popFloor mT) :
    ∀ bp log, previewE env plan length dis pairs mT mA = .ok (bp, log) →
      bp.uris = [] ∧ bp.tracks = [] := by
  intro bp log h
  rcases hsel : env.selector with e | res
  · rw [previewE, hsel] at h
    cases h
  · have hpasses : ∀ e ∈ (collectPool env dis).1,
        passesPopularity env.artists e.2 mT mA = false := by
      intro e he
      apply passesPopularity_false_of_low_artist_pop
      rcases collectPool_sources env dis e he with h1 | h1 | h1 | h1
      · exact hpool _ (Or.inl h1)
      · exact hpool _ (Or.inr (Or.inl h1))
      · exact hpool _ (Or.inr (Or.inr (Or.inl h1)))
      · exact hpool _ (Or.inr (Or.inr (Or.inr h1)))
    have hchosen : chosenOf env plan dis mT mA res = [] := by
      unfold chosenOf
      simp only
      rw [resolveLibraryPicks_nil_of_unpopular _ _ _ _ _ _ _ _ hpasses,
          resolveOutsidePicks_chosen_nil _ _ _ _ _ _ _ hsearch]
      rfl
    have hs3 : stage3Of env plan length dis mT mA res = ([], dis, []) := by
      unfold stage3Of
      rw [hchosen]
      rfl
    have hfilters : ∀ q, (applyArtistPopGenreFilters env.artists
        (sortByPopDesc (env.search q)) (deriveGenreTokens plan) mT mA).1 = [] :=
      fun q => applyFilters_nil_of_low_artist_pop _ _ _ _ _
        (fun t ht => hsearch q t ((sortByPopDesc_mem _ _).mp ht))
    have hst4 : (stage4Of env plan length dis mT mA res).uniq = [] := by
      unfold stage4Of
      simp only
      rw [hs3]
      rw [if_pos (by simpa using clampN_pos length)]
      rw [backfillLoop_uniq_const _ _ _ _ _ _ _ hfilters]
    rw [previewE, hsel] at h
    simp only at h
    split at h
    · rcases hmw : moodWord plan with - | mw
      · rw [hmw] at h
        cases h
      · rw [hmw] at h
        simp only [Except.ok.injEq, Prod.mk.injEq] at h
        obtain ⟨hbp, -⟩ := h
        subst hbp
        have hst5 : (relaxedLoop env.search (wantCleanOf env plan) mT
            (fallbackQueries (deriveGenreTokens plan) mw)
            { uniq := (stage4Of env plan length dis mT mA res).uniq,
              seen := (stage4Of env plan length dis mT mA res).seen,
              seenKeys := (stage4Of env plan length dis mT mA res).seenKeys,
              need := clampN length -
                (stage4Of env plan length dis mT mA res).uniq.length,
              rejected := (stage4Of env plan length dis mT mA res).rejected,
              log := [] }).uniq = [] := by
          rw [relaxedLoop_uniq_const _ _ _ _ _ hrelax]
          exact hst4
        rw [hst5]
        unfold finalize
        rw [if_pos (by simpa using clampN_pos length)]
        exact ⟨rfl, rfl⟩
    · rename_i hge
      rw [hst4] at hge
      exact absurd (clampN_pos length) (by simpa using hge)

/-- C8 witness: with unknown artists, no genre match and only a below-floor
search candidate, the concrete run returns the empty result. -/
theorem C8_witness :
    (okBp c8wRun).uris = [] ∧ (okBp c8wRun).tracks = [] :=
  C8_quota_failure_empty envC8w metalPlan 4 [] [] 35 35
    (by
      intro t h
      rcases h with h | h | h | h <;> exact absurd h (List.not_mem_nil t))
    (fun q t ht =>
      (by decide : ∀ t ∈ [tL], bestArtistPop envC8w.artists t < 35) t ht)
    (by decide)
    (fun q t ht => (by decide : ∀ t ∈ [tL],
      artistGenresMatch envC8w.artists t (deriveGenreTokens metalPlan) = false) t ht)
    (fun q t ht =>
      (by decide : ∀ t ∈ [tL], t.popularity < popFloor 35) t ht)
    (okBp c8wRun) (okLog c8wRun) rfl

/-- C9 counterexample: two plans with identical tags and themes but
different candidate buckets derive different genre-token sets — the
derivation reads the candidate buckets, not the themes, so it is NOT a
function of the tags/themes text as claimed. -/
theorem C9_counterexample :
    tagsThemesText plan9a = tagsThemesText plan9b ∧
    deriveGenreTokens plan9a ≠ deriveGenreTokens plan9b :=
  ⟨rfl, by decide⟩

/-- C9 (amended): genre-token derivation is a pure, deterministic function
of the plan tags/candidate-buckets text: equal texts give equal token sets,
a token is included iff its family has some synonym occurring as a substring
of the text (the family's whole synonym set coming with it), and every token
occurs exactly once. -/
theorem C9_genre_derivation :
    (∀ p q, planText p = planText q →
      deriveGenreTokens p = deriveGenreTokens q) ∧
    (∀ p t, t ∈ deriveGenreTokens p ↔
      ∃ fam ∈ genreMap, (∃ tok ∈ fam.2, substrB tok (planText p) = true) ∧
        t ∈ fam.2) ∧
    (∀ p, (deriveGenreTokens p).Nodup) :=
  ⟨deriveGenreTokens_eq_of_planText, deriveGenreTokens_mem,
   deriveGenreTokens_nodup⟩

/-- C9 witness: the metal plan derives the metal family. -/
theorem C9_witness :
    deriveGenreTokens plan9a = deriveGenreTokens plan9a ∧
    "metal" ∈ deriveGenreTokens metalPlan :=
  ⟨C9_genre_derivation.1 plan9a plan9a rfl,
   (C9_genre_derivation.2.1 metalPlan "metal").mpr (by decide)⟩

/-- C10: a failing or empty batched artist lookup never raises (the cache is
left as-is and unknown ids resolve to nothing); the guards then treat the
best artist popularity as 0, so with `MIN_ARTIST_POP > 0` such a candidate
fails `_passes_popularity` and is dropped by
`_apply_artist_pop_and_genre_filters` in every guarded stage; only the
relaxed fallback, which consults no artist metadata, can still accept it —
as the concrete run shows. -/
theorem C10_artist_lookup_failure_guard :
    (∀ ids aid, artistInfoForIds (fun _ => none) (.error ()) ids aid = none) ∧
    (∀ lookup t, (∀ aid ∈ trackArtistIds t, lookup aid = none) →
      bestArtistPop lookup t = 0) ∧
    (∀ lookup t mT mA, 0 < mA →
      (∀ aid ∈ trackArtistIds t, lookup aid = none) →
      passesPopularity lookup t mT mA = false) ∧
    (∀ lookup items toks mT mA t, 0 < mA →
      (∀ aid ∈ trackArtistIds t, lookup aid = none) →
      t ∉ (applyArtistPopGenreFilters lookup items toks mT mA).1) ∧
    (preview envC8 metalPlan 4 [] [] 35 35 = .ok (okBp c8Run) ∧
      (okBp c8Run).tracks ≠ [] ∧
      ∀ t ∈ (okBp c8Run).tracks, ∀ aid ∈ trackArtistIds t,
        envC8.artists aid = none) := by
  refine ⟨?_, bestArtistPop_eq_zero, passesPopularity_false_of_unknown_artists,
    applyFilters_not_mem_of_unknown_artists, rfl, by decide, by decide⟩
  intro ids aid
  unfold artistInfoForIds
  split
  · rfl
  · rfl

/-- C10 witness: a track with only unknown artists fails the popularity
guard under the default thresholds. -/
theorem C10_witness :
    0 < 35 ∧ passesPopularity (fun _ => none) tG1 35 35 = false :=
  ⟨by decide,
   C10_artist_lookup_failure_guard.2.2.1 (fun _ => none) tG1 35 35 (by decide)
     (fun aid ha => rfl)⟩

end MoodMix
